import Mathlib

/-!
Verification of the agario client core (GameScene.ts and the SpacetimeDB
client module, stdbClient).  The TypeScript code is shallowly embedded:
JS `number` becomes `ℝ`, `Map` becomes an association list (insertion
order preserved, value replaced in place on overwrite, as JS `Map.set`
does), `Set` becomes a duplicate-free list, and each callback / method
becomes a pure state-transition function.  Rendering-only effects
(Phaser graphics objects, tweens, camera) are carried as plain fields
(visibility flags, fill colors, text content) where a claim depends on
them and omitted otherwise.
-/

namespace Agario

/-! ### Constants (GameScene.ts lines 15-23) -/

def WORLD_SIZE : ℝ := 3000
def FOOD_RADIUS : ℝ := 6
def INITIAL_MASS : ℝ := 100
def BASE_SPEED : ℝ := 150
def POSITION_SEND_INTERVAL_MS : ℝ := 50
def SPLIT_LAUNCH_SPEED : ℝ := 700

/-- `massToRadius` (GameScene.ts line 34): `Math.sqrt(mass) * 2`. -/
noncomputable def massToRadius (mass : ℝ) : ℝ := Real.sqrt mass * 2

/-- `Phaser.Math.Clamp(v, lo, hi) = Math.max(lo, Math.min(v, hi))`. -/
noncomputable def clamp (v lo hi : ℝ) : ℝ := max lo (min v hi)

/-! ### JS `Map` / `Set` as association list / duplicate-free list -/

variable {κ : Type} {α : Type} [DecidableEq κ]

/-- `Map.get`: value of the first entry with the given key. -/
def lookupK : List (κ × α) → κ → Option α
  | [], _ => none
  | (k', v) :: t, k => if k = k' then some v else lookupK t k

/-- `Map.set`: replace in place if the key is present, else append
(JS `Map` preserves insertion order and keeps the original position of
an overwritten key). -/
def setK (m : List (κ × α)) (k : κ) (v : α) : List (κ × α) :=
  if k ∈ m.map Prod.fst then
    m.map (fun p => if p.1 = k then (k, v) else p)
  else m ++ [(k, v)]

/-- `Map.delete`. -/
def eraseK (m : List (κ × α)) (k : κ) : List (κ × α) :=
  m.filter (fun p => decide (p.1 ≠ k))

/-- `Set.add` (keys stay duplicate-free). -/
def addS (s : List κ) (a : κ) : List κ := if a ∈ s then s else a :: s

/-- `Set.delete`. -/
def eraseS (s : List κ) (a : κ) : List κ := s.filter (fun x => decide (x ≠ a))

/-! ### Entity rows (module_bindings/types, as used by the client) -/

/-- A `player` row.  The key used in `playerMap` is
`identity.toHexString()`; we model the identity directly as that hex
string. -/
structure Player where
  identity : String
  x : ℝ
  y : ℝ
  mass : ℝ
  radius : ℝ
  color : Nat
  name : String

/-- A `food_pellet` row (keyed by its `id` in `foodMap`). -/
structure FoodPellet where
  x : ℝ
  y : ℝ

/-- An `ejected_mass` row (keyed by its `id` in `ejectedMassMap`). -/
structure EjectedMass where
  x : ℝ
  y : ℝ
  radius : ℝ

/-- A `player_cell` row (keyed by `cellId` in `playerCellMap`). -/
structure PlayerCell where
  cellId : Nat
  playerIdentity : String
  x : ℝ
  y : ℝ
  mass : ℝ
  radius : ℝ

/-! ### State of the stdbClient module (src/unnamed/part_000)

Module-level mutable bindings: the four replica maps, the two pending
sets, `_conn` (modelled by the flag `connActive` = `_conn !== null`),
`_localIdentityHex` and `_generation`. -/

structure ClientState where
  playerMap : List (String × Player)
  foodMap : List (Nat × FoodPellet)
  ejectedMassMap : List (Nat × EjectedMass)
  playerCellMap : List (Nat × PlayerCell)
  pendingFoodEats : List Nat
  pendingEjectedMassEats : List Nat
  localIdentityHex : Option String
  generation : Nat
  connActive : Bool

/-! ### Replication / connection callbacks (part_000 lines 161-262)

Each callback captures `myGen` at registration time and first compares
it against the current `_generation`; on mismatch it returns without
touching anything.  Callbacks that additionally fire an external effect
(the eaten callback, the cell-deleted callback, dispatching
`spawnPlayer`) return a `Bool` telling whether the effect fired. -/

/-- `onConnect` (lines 173-194): records the local identity (the
subscription it also builds is connection plumbing, not client state). -/
def onConnect (myGen : Nat) (identity : String) (s : ClientState) : ClientState :=
  if myGen ≠ s.generation then s
  else { s with localIdentityHex := some identity }

/-- `onApplied` (lines 181-187): dispatches `spawnPlayer` once the
subscription is applied; no client state is touched. -/
def onSubscriptionApplied (myGen : Nat) (s : ClientState) : ClientState × Bool :=
  if myGen ≠ s.generation then (s, false) else (s, true)

/-- `onDisconnect` (lines 195-199): clears the local identity only. -/
def onDisconnect (myGen : Nat) (s : ClientState) : ClientState :=
  if myGen ≠ s.generation then s
  else { s with localIdentityHex := none }

/-- `onConnectError` (lines 200-203): logs; no state change in either
branch. -/
def onConnectError (myGen : Nat) (s : ClientState) : ClientState :=
  if myGen ≠ s.generation then s else s

/-- `player.onInsert` (lines 206-209). -/
def playerOnInsert (myGen : Nat) (p : Player) (s : ClientState) : ClientState :=
  if myGen ≠ s.generation then s
  else { s with playerMap := setK s.playerMap p.identity p }

/-- `player.onUpdate` (lines 210-213). -/
def playerOnUpdate (myGen : Nat) (pNew : Player) (s : ClientState) : ClientState :=
  if myGen ≠ s.generation then s
  else { s with playerMap := setK s.playerMap pNew.identity pNew }

/-- `player.onDelete` (lines 214-223): removes the row; fires the eaten
callback when the deleted row is the local player and `_conn !== null`.
The returned `Bool` is whether `_onEatenCallback?.()` was reached. -/
def playerOnDelete (myGen : Nat) (p : Player) (s : ClientState) : ClientState × Bool :=
  if myGen ≠ s.generation then (s, false)
  else
    ({ s with playerMap := eraseK s.playerMap p.identity },
     decide (s.localIdentityHex = some p.identity) && s.connActive)

/-- `food_pellet.onInsert` (lines 225-229): caches the row and evicts
any pending eat for that id. -/
def foodOnInsert (myGen : Nat) (id : Nat) (f : FoodPellet) (s : ClientState) :
    ClientState :=
  if myGen ≠ s.generation then s
  else { s with foodMap := setK s.foodMap id f,
                pendingFoodEats := eraseS s.pendingFoodEats id }

/-- `food_pellet.onDelete` (lines 230-234). -/
def foodOnDelete (myGen : Nat) (id : Nat) (s : ClientState) : ClientState :=
  if myGen ≠ s.generation then s
  else { s with foodMap := eraseK s.foodMap id,
                pendingFoodEats := eraseS s.pendingFoodEats id }

/-- `ejected_mass.onInsert` (lines 236-239): caches the row only (no
pending eviction on insert for ejected mass). -/
def ejectedOnInsert (myGen : Nat) (id : Nat) (em : EjectedMass) (s : ClientState) :
    ClientState :=
  if myGen ≠ s.generation then s
  else { s with ejectedMassMap := setK s.ejectedMassMap id em }

/-- `ejected_mass.onDelete` (lines 240-244). -/
def ejectedOnDelete (myGen : Nat) (id : Nat) (s : ClientState) : ClientState :=
  if myGen ≠ s.generation then s
  else { s with ejectedMassMap := eraseK s.ejectedMassMap id,
                pendingEjectedMassEats := eraseS s.pendingEjectedMassEats id }

/-- `player_cell.onInsert` (lines 246-249). -/
def cellOnInsert (myGen : Nat) (c : PlayerCell) (s : ClientState) : ClientState :=
  if myGen ≠ s.generation then s
  else { s with playerCellMap := setK s.playerCellMap c.cellId c }

/-- `player_cell.onUpdate` (lines 250-253). -/
def cellOnUpdate (myGen : Nat) (cNew : PlayerCell) (s : ClientState) : ClientState :=
  if myGen ≠ s.generation then s
  else { s with playerCellMap := setK s.playerCellMap cNew.cellId cNew }

/-- `player_cell.onDelete` (lines 254-258): removes the row and fires
the cell-deleted callback.  The `Bool` is whether
`_onCellDeletedCallback?.(cell.cellId)` was reached. -/
def cellOnDelete (myGen : Nat) (c : PlayerCell) (s : ClientState) : ClientState × Bool :=
  if myGen ≠ s.generation then (s, false)
  else ({ s with playerCellMap := eraseK s.playerCellMap c.cellId }, true)

/-- `cleanupSpacetimeDB` (part_000 lines 264-284): bumps the
generation, dispatches `despawnPlayer` and disconnects when a
connection exists, then clears every replica map, both pending sets
and the local identity.  The `Bool` is whether `despawnPlayer` was
dispatched. -/
def cleanupSpacetimeDB (s : ClientState) : ClientState × Bool :=
  ({ playerMap := []
     foodMap := []
     ejectedMassMap := []
     playerCellMap := []
     pendingFoodEats := []
     pendingEjectedMassEats := []
     localIdentityHex := none
     generation := s.generation + 1
     connActive := false }, s.connActive)

/-! ### GameScene state (src/src/game/scenes/GameScene.ts)

`localCircle`'s position is kept identical to `(localX, localY)`
throughout the scene (they are only ever set together), so the circle
position is not duplicated; visibility, fill colors and the name-text
content are carried explicitly because claims depend on them. -/

structure SceneState where
  localX : ℝ
  localY : ℝ
  localMass : ℝ
  localRadius : ℝ
  serverPositionInitialized : Bool
  isEaten : Bool
  eatenOverlayVisible : Bool
  localCircleVisible : Bool
  localNameTextVisible : Bool
  /-- text content of `localNameText` (set from `playerName` at create,
  line 230-231). -/
  localNameText : String
  /-- fill color of `localCircle`. -/
  localCircleFill : Nat
  /-- fill color of `localSplitCircle`. -/
  localSplitFill : Nat
  splitCellId : Option Nat
  splitClientX : ℝ
  splitClientY : ℝ
  splitLaunchVx : ℝ
  splitLaunchVy : ℝ
  splitLaunching : Bool
  splitMerging : Bool
  splitMergeElapsed : ℝ
  splitCircleVisible : Bool
  pendingSplitDir : Option (ℝ × ℝ)
  pendingEjectDir : Option (ℝ × ℝ × ℝ)
  pendingPlayerEats : List String
  ejectedAnimating : List Nat

/-- `movePlayerTowardMouse(delta)` (GameScene.ts lines 346-375).
Prediction is disabled until the one-time server snap
(`serverPositionInitialized`); otherwise, when the pointer is more than
5 px away, the position moves toward it at `BASE_SPEED /
sqrt(localMass / INITIAL_MASS)` and is clamped to
`[localRadius, WORLD_SIZE - localRadius]` in each coordinate. -/
noncomputable def movePlayerTowardMouse (pointerX pointerY delta : ℝ)
    (s : SceneState) : SceneState :=
  if !s.serverPositionInitialized then s
  else
    let dx := pointerX - s.localX
    let dy := pointerY - s.localY
    let dist := Real.sqrt (dx * dx + dy * dy)
    if dist > 5 then
      let speed := BASE_SPEED / Real.sqrt (s.localMass / INITIAL_MASS)
      let dt := delta / 1000
      let vx := dx / dist * speed
      let vy := dy / dist * speed
      { s with
        localX := clamp (s.localX + vx * dt) s.localRadius (WORLD_SIZE - s.localRadius)
        localY := clamp (s.localY + vy * dt) s.localRadius (WORLD_SIZE - s.localRadius) }
    else s

/-- `updateSplitCells(delta)` (GameScene.ts lines 379-449).  When
`splitMerging`, one frame of the exponential merge animation toward the
current `(localX, localY)`; the animation ends (circle hidden, flag
cleared) exactly when the new distance falls below 5 or the accumulated
time exceeds 600 ms.  Otherwise: launch-decay or cursor-follow movement
of the split cell, from the replicated `PlayerCell` row. -/
noncomputable def updateSplitCells (pointerX pointerY delta : ℝ)
    (cellMap : List (Nat × PlayerCell)) (s : SceneState) : SceneState :=
  if s.splitMerging then
    let elapsed := s.splitMergeElapsed + delta
    let factor := 1 - Real.exp (-10 * (delta / 1000))
    let nx := s.splitClientX + (s.localX - s.splitClientX) * factor
    let ny := s.splitClientY + (s.localY - s.splitClientY) * factor
    let dx := s.localX - nx
    let dy := s.localY - ny
    if Real.sqrt (dx * dx + dy * dy) < 5 ∨ elapsed > 600 then
      { s with splitMergeElapsed := elapsed, splitClientX := nx, splitClientY := ny,
               splitMerging := false, splitCircleVisible := false }
    else
      { s with splitMergeElapsed := elapsed, splitClientX := nx, splitClientY := ny }
  else
    match s.splitCellId with
    | none => s
    | some cid =>
      match lookupK cellMap cid with
      | none => s
      | some cell =>
        let dt := delta / 1000
        if s.splitLaunching then
          let decay := Real.exp (-5 * dt)
          let vx := s.splitLaunchVx * decay
          let vy := s.splitLaunchVy * decay
          let nx := clamp (s.splitClientX + vx * dt) cell.radius (WORLD_SIZE - cell.radius)
          let ny := clamp (s.splitClientY + vy * dt) cell.radius (WORLD_SIZE - cell.radius)
          let speed := Real.sqrt (vx ^ 2 + vy ^ 2)
          let s' := { s with splitLaunchVx := vx, splitLaunchVy := vy,
                             splitClientX := nx, splitClientY := ny }
          if speed < 30 then { s' with splitLaunching := false } else s'
        else
          let dx := pointerX - s.splitClientX
          let dy := pointerY - s.splitClientY
          let dist := Real.sqrt (dx * dx + dy * dy)
          if dist > 5 then
            let speed := BASE_SPEED / Real.sqrt (cell.mass / INITIAL_MASS)
            { s with
              splitClientX := clamp (s.splitClientX + dx / dist * speed * dt)
                cell.radius (WORLD_SIZE - cell.radius)
              splitClientY := clamp (s.splitClientY + dy / dist * speed * dt)
                cell.radius (WORLD_SIZE - cell.radius) }
          else s

/-- First `PlayerCell` row whose `playerIdentity` matches, in map
iteration order (the for-of loop with `break`, lines 492-497). -/
def findCellFor (cellMap : List (Nat × PlayerCell)) (idHex : String) :
    Option PlayerCell :=
  match cellMap with
  | [] => none
  | (_, c) :: rest =>
    if c.playerIdentity = idHex then some c else findCellFor rest idHex

/-- Split-cell part of `syncFromServer` (lines 489-537), reached only
when the local player's row is present. -/
def syncSplitCell (cellMap : List (Nat × PlayerCell)) (idHex : String)
    (s : SceneState) : SceneState :=
  match findCellFor cellMap idHex with
  | some cell =>
    let s1 :=
      if s.splitCellId ≠ some cell.cellId then
        let s0 := { s with splitMerging := false, splitCellId := some cell.cellId }
        match s0.pendingSplitDir with
        | some (nx, ny) =>
          { s0 with splitClientX := s0.localX, splitClientY := s0.localY,
                    splitLaunchVx := nx * SPLIT_LAUNCH_SPEED,
                    splitLaunchVy := ny * SPLIT_LAUNCH_SPEED,
                    splitLaunching := true, pendingSplitDir := none }
        | none =>
          { s0 with splitClientX := cell.x, splitClientY := cell.y,
                    splitLaunchVx := 0, splitLaunchVy := 0, splitLaunching := false }
      else s
    { s1 with splitCircleVisible := true }
  | none =>
    if s.splitCellId ≠ none then
      let s1 := { s with splitCellId := none, splitLaunching := false }
      if s1.splitCircleVisible then
        { s1 with splitMerging := true, splitMergeElapsed := 0 }
      else s1
    else s

/-- Local-player part of `syncFromServer` (GameScene.ts lines 462-539):
one-time hard snap of the predicted position on the first authoritative
snapshot, then mass/radius reconciliation, fill colors from the
authoritative color, and the split-cell sync.  The remote-player /
food / ejected-mass graphics sync that follows (lines 541-682) touches
none of these fields. -/
noncomputable def syncFromServerLocal (cs : ClientState) (s : SceneState) :
    SceneState :=
  match cs.localIdentityHex with
  | none => s
  | some lid =>
    match lookupK cs.playerMap lid with
    | none => s
    | some sp =>
      let s1 :=
        if !s.serverPositionInitialized then
          { s with serverPositionInitialized := true,
                   localX := sp.x, localY := sp.y,
                   localCircleVisible := true, localNameTextVisible := true }
        else s
      let s2 :=
        if sp.mass ≠ s1.localMass then
          { s1 with localMass := sp.mass, localRadius := massToRadius sp.mass }
        else s1
      let s3 := { s2 with localCircleFill := sp.color, localSplitFill := sp.color }
      syncSplitCell cs.playerCellMap lid s3

/-- `checkFoodCollisions` loop body (GameScene.ts lines 693-704): scan
`foodMap` in iteration order, skip pending ids, and on overlap
(`dist < localRadius + FOOD_RADIUS`) add the id to `pendingFoodEats`
and dispatch `eatFood`.  Returns the new pending set and the dispatched
ids in scan order. -/
noncomputable def checkFoodCollisions (lx ly lr : ℝ) :
    List (Nat × FoodPellet) → List Nat → List Nat × List Nat
  | [], pending => (pending, [])
  | (fid, f) :: rest, pending =>
    if fid ∈ pending then checkFoodCollisions lx ly lr rest pending
    else
      let dx := f.x - lx
      let dy := f.y - ly
      let dist := Real.sqrt (dx * dx + dy * dy)
      if dist < lr + FOOD_RADIUS then
        let out := checkFoodCollisions lx ly lr rest (addS pending fid)
        (out.1, fid :: out.2)
      else checkFoodCollisions lx ly lr rest pending

/-- `checkEjectedMassCollisions` loop body (lines 711-723): as for food
but additionally skipping ids whose arrival tween is still running
(`ejectedAnimating`), and with the pellet's own radius in the overlap
test. -/
noncomputable def checkEjectedMassCollisions (lx ly lr : ℝ) (animating : List Nat) :
    List (Nat × EjectedMass) → List Nat → List Nat × List Nat
  | [], pending => (pending, [])
  | (mid, em) :: rest, pending =>
    if mid ∈ pending then checkEjectedMassCollisions lx ly lr animating rest pending
    else if mid ∈ animating then
      checkEjectedMassCollisions lx ly lr animating rest pending
    else
      let dx := em.x - lx
      let dy := em.y - ly
      let dist := Real.sqrt (dx * dx + dy * dy)
      if dist < lr + em.radius then
        let out := checkEjectedMassCollisions lx ly lr animating rest (addS pending mid)
        (out.1, mid :: out.2)
      else checkEjectedMassCollisions lx ly lr animating rest pending

/-- `checkPlayerCollisions` main loop (lines 738-759): skip the local
player, skip pending targets, require `localMass ≥ target.mass * 1.1`
(the code `continue`s when `localMass < mass * 1.1`), and dispatch
`eatPlayer` when the target's center is strictly inside the local
radius (one-sided test: the target's radius is not consulted). -/
noncomputable def checkPlayerCollisionsLoop (localId : String) (lx ly lr lm : ℝ) :
    List (String × Player) → List String → List String × List String
  | [], pending => (pending, [])
  | (pid, p) :: rest, pending =>
    if pid = localId then checkPlayerCollisionsLoop localId lx ly lr lm rest pending
    else if pid ∈ pending then checkPlayerCollisionsLoop localId lx ly lr lm rest pending
    else if lm < p.mass * 1.1 then
      checkPlayerCollisionsLoop localId lx ly lr lm rest pending
    else
      let dx := p.x - lx
      let dy := p.y - ly
      let dist := Real.sqrt (dx * dx + dy * dy)
      if dist < lr then
        let out := checkPlayerCollisionsLoop localId lx ly lr lm rest (addS pending pid)
        (out.1, pid :: out.2)
      else checkPlayerCollisionsLoop localId lx ly lr lm rest pending

/-- `checkPlayerCollisions` (lines 726-760): first evict pending
entries whose target is no longer in `playerMap` (lines 732-736), then
run the dispatch loop. -/
noncomputable def checkPlayerCollisions (localId : String) (lx ly lr lm : ℝ)
    (players : List (String × Player)) (pending : List String) :
    List String × List String :=
  checkPlayerCollisionsLoop localId lx ly lr lm players
    (pending.filter (fun pid => decide (pid ∈ players.map Prod.fst)))

/-- `handleEaten` (GameScene.ts lines 828-860): guarded by `isEaten`;
on first invocation shows the overlay, resets predicted state and split
state, clears `pendingPlayerEats` and the animation bookkeeping, and
schedules the delayed respawn.  The `Bool` is whether the 2-second
respawn call was scheduled. -/
noncomputable def handleEaten (s : SceneState) : SceneState × Bool :=
  if s.isEaten then (s, false)
  else
    ({ s with isEaten := true,
              eatenOverlayVisible := true,
              localMass := INITIAL_MASS,
              localRadius := massToRadius INITIAL_MASS,
              serverPositionInitialized := false,
              localCircleVisible := false,
              localNameTextVisible := false,
              splitCircleVisible := false,
              pendingPlayerEats := [],
              splitCellId := none,
              splitLaunching := false,
              splitMerging := false,
              splitMergeElapsed := 0,
              pendingSplitDir := none,
              pendingEjectDir := none,
              ejectedAnimating := [] }, true)

/-- `sendPositionUpdate(time)` (lines 943-965): rate-limited to one
dispatch per 50 ms; returns the dispatched `updatePosition` payload (if
any) and the new `lastPositionSentAt`. -/
noncomputable def sendPositionUpdate (time lastPositionSentAt : ℝ) (connActive : Bool)
    (s : SceneState) : Option (ℝ × ℝ) × ℝ :=
  if time - lastPositionSentAt < POSITION_SEND_INTERVAL_MS then
    (none, lastPositionSentAt)
  else if !connActive then (none, time)
  else (some (s.localX, s.localY), time)

/-! ### Intent-dispatcher event system

The interleaving of collision-check frames, promise resolutions and
replication events relevant to the pending-eat trackers.  Replication
handlers run at the connection's current generation (the stale case is
covered separately by the generation theorems). -/

/-- A reducer request dispatched by the intent dispatcher. -/
inductive Req where
  | eatFood (id : Nat)
  | eatEjectedMass (id : Nat)
  | eatPlayer (id : String)
deriving DecidableEq

/-- Events affecting the pending-eat trackers. -/
inductive DEv where
  /-- one frame of the three collision checks (update() lines 185-187),
  gated by the `isEaten` early return (line 180) -/
  | frame
  /-- `.catch` of `eatFood` (line 700-702) -/
  | rejectFood (id : Nat)
  /-- `.catch` of `eatEjectedMass` (line 719-721) -/
  | rejectEjectedMass (id : Nat)
  /-- `.then` or `.catch` of `eatPlayer` (lines 752-757; both delete) -/
  | resolvePlayerEat (id : String)
  | insertFood (id : Nat) (f : FoodPellet)
  | deleteFood (id : Nat)
  | insertEjected (id : Nat) (em : EjectedMass)
  | deleteEjected (id : Nat)
  | insertPlayer (p : Player)
  | updatePlayer (p : Player)
  | deletePlayer (p : Player)
  /-- the delayed `doRespawn` call (lines 862-874): clears the eaten
  state and overlay, then dispatches `spawnPlayer` (not an eat
  request) -/
  | respawn

/-- One event step over the combined module + scene state, returning
the reducer eat requests dispatched during the step.  `frame` is the
three collision checks behind `update()`'s `isEaten` early return;
`deletePlayer` runs the row handler and, when it fires the eaten
callback (local row deleted while `_conn !== null`), synchronously runs
`handleEaten` on the scene — which among other things clears
`pendingPlayerEats` (GameScene.ts line 842). -/
noncomputable def dispatchStep (st : ClientState × SceneState) (e : DEv) :
    (ClientState × SceneState) × List Req :=
  let cs := st.1
  let ss := st.2
  match e with
  | DEv.frame =>
    if ss.isEaten then ((cs, ss), [])
    else
      let foodOut :=
        if cs.connActive then
          checkFoodCollisions ss.localX ss.localY ss.localRadius cs.foodMap
            cs.pendingFoodEats
        else (cs.pendingFoodEats, [])
      let ejectOut :=
        if cs.connActive then
          checkEjectedMassCollisions ss.localX ss.localY ss.localRadius
            ss.ejectedAnimating cs.ejectedMassMap cs.pendingEjectedMassEats
        else (cs.pendingEjectedMassEats, [])
      let playerOut :=
        if cs.connActive then
          match cs.localIdentityHex with
          | some lid =>
            checkPlayerCollisions lid ss.localX ss.localY ss.localRadius
              ss.localMass cs.playerMap ss.pendingPlayerEats
          | none => (ss.pendingPlayerEats, [])
        else (ss.pendingPlayerEats, [])
      (({ cs with pendingFoodEats := foodOut.1,
                  pendingEjectedMassEats := ejectOut.1 },
        { ss with pendingPlayerEats := playerOut.1 }),
       foodOut.2.map Req.eatFood ++ ejectOut.2.map Req.eatEjectedMass
         ++ playerOut.2.map Req.eatPlayer)
  | DEv.rejectFood id =>
    (({ cs with pendingFoodEats := eraseS cs.pendingFoodEats id }, ss), [])
  | DEv.rejectEjectedMass id =>
    (({ cs with pendingEjectedMassEats := eraseS cs.pendingEjectedMassEats id },
      ss), [])
  | DEv.resolvePlayerEat id =>
    ((cs, { ss with pendingPlayerEats := eraseS ss.pendingPlayerEats id }), [])
  | DEv.insertFood id f => ((foodOnInsert cs.generation id f cs, ss), [])
  | DEv.deleteFood id => ((foodOnDelete cs.generation id cs, ss), [])
  | DEv.insertEjected id em => ((ejectedOnInsert cs.generation id em cs, ss), [])
  | DEv.deleteEjected id => ((ejectedOnDelete cs.generation id cs, ss), [])
  | DEv.insertPlayer p => ((playerOnInsert cs.generation p cs, ss), [])
  | DEv.updatePlayer p => ((playerOnUpdate cs.generation p cs, ss), [])
  | DEv.deletePlayer p =>
    (((playerOnDelete cs.generation p cs).1,
      if (playerOnDelete cs.generation p cs).2 then (handleEaten ss).1 else ss),
     [])
  | DEv.respawn =>
    ((cs, { ss with isEaten := false, eatenOverlayVisible := false }), [])

/-- Run a list of dispatcher events, accumulating dispatched requests. -/
noncomputable def runD (st : ClientState × SceneState) :
    List DEv → (ClientState × SceneState) × List Req
  | [] => (st, [])
  | e :: rest =>
    let out := dispatchStep st e
    let out' := runD out.1 rest
    (out'.1, out.2 ++ out'.2)

/-- Events that evict a pending `eatFood` entry for `id`: the request's
`.catch`, or the pellet's replicated delete or (re)insert. -/
def clearsFood (e : DEv) (id : Nat) : Prop :=
  e = DEv.rejectFood id ∨ e = DEv.deleteFood id ∨ ∃ f, e = DEv.insertFood id f

/-- Events that evict a pending `eatEjectedMass` entry for `id`. -/
def clearsEjected (e : DEv) (id : Nat) : Prop :=
  e = DEv.rejectEjectedMass id ∨ e = DEv.deleteEjected id

/-- Events that can evict a pending `eatPlayer` entry for `id` other
than through the stale-entry sweep (with `lid` the connection's local
identity, which no dispatcher event changes): the request's own
`.then`/`.catch`, the target's row deletion (which makes the next
frame's sweep evict it), or the deletion of the local player's own row
— the latter fires `handleEaten`, which clears the whole pending set. -/
def clearsPlayerEat (lid : Option String) (e : DEv) (id : String) : Prop :=
  e = DEv.resolvePlayerEat id ∨
  ∃ p, e = DEv.deletePlayer p ∧ (p.identity = id ∨ lid = some p.identity)

/-! ### Merge-animation frame runs (for the termination claim)

One frame = the prediction step moving the primary cell to a new
position, then `updateSplitCells(delta)`. -/

/-- Per-frame inputs of a merge-animation run: pointer position, the
primary cell's position for this frame (as produced by
`movePlayerTowardMouse`), and the frame delta in ms. -/
structure MergeFrame where
  px : ℝ
  py : ℝ
  lx : ℝ
  ly : ℝ
  delta : ℝ

/-- Run `updateSplitCells` over a sequence of frames, with the primary
cell at the given per-frame position. -/
noncomputable def runMergeFrames (cellMap : List (Nat × PlayerCell))
    (s : SceneState) : List MergeFrame → SceneState
  | [] => s
  | f :: rest =>
    runMergeFrames cellMap
      (updateSplitCells f.px f.py f.delta cellMap
        { s with localX := f.lx, localY := f.ly }) rest

/-! ### Concrete base states for witnesses and counterexamples -/

def scene0 : SceneState :=
  { localX := 1500, localY := 1500, localMass := 100, localRadius := 20,
    serverPositionInitialized := false, isEaten := false,
    eatenOverlayVisible := false, localCircleVisible := false,
    localNameTextVisible := false, localNameText := "Player",
    localCircleFill := 0, localSplitFill := 0, splitCellId := none,
    splitClientX := 0, splitClientY := 0, splitLaunchVx := 0,
    splitLaunchVy := 0, splitLaunching := false, splitMerging := false,
    splitMergeElapsed := 0, splitCircleVisible := false,
    pendingSplitDir := none, pendingEjectDir := none,
    pendingPlayerEats := [], ejectedAnimating := [] }

def client0 : ClientState :=
  { playerMap := [], foodMap := [], ejectedMassMap := [], playerCellMap := [],
    pendingFoodEats := [], pendingEjectedMassEats := [],
    localIdentityHex := none, generation := 0, connActive := true }

/-- Scene state at the start of a merge animation, with the split half
5000 px away from the primary cell (both on the x axis). -/
def sceneMerge0 : SceneState :=
  { scene0 with localX := 0, localY := 0, splitMerging := true,
                splitMergeElapsed := 0, splitClientX := 5000, splitClientY := 0,
                splitCircleVisible := true }

/-- The vanishing frame-delta sequence 300, 150, 75, ... ms: every
delta is positive yet the total stays below 600 ms. -/
noncomputable def cexFrames (n : ℕ) : List MergeFrame :=
  (List.range n).map (fun k => { px := 0, py := 0, lx := 0, ly := 0,
                                 delta := 600 / 2 ^ (k + 1) })

/-- A single 601 ms frame, enough to pass the merge-timeout ceiling. -/
noncomputable def mergeFrame601 : MergeFrame :=
  { px := 0, py := 0, lx := 0, ly := 0, delta := 601 }

def player0 : Player :=
  { identity := "p1", x := 1500, y := 1500, mass := 100, radius := 20,
    color := 0, name := "P1" }

def food0 : FoodPellet := { x := 1500, y := 1500 }

def em0 : EjectedMass := { x := 1500, y := 1500, radius := 6 }

def cell0 : PlayerCell :=
  { cellId := 1, playerIdentity := "p1", x := 1500, y := 1500, mass := 50,
    radius := 14 }

/-- A client state whose generation has moved past 0 (one reconnect). -/
def client1 : ClientState := { client0 with generation := 1 }

/-- A connected client with one replicated player and one pellet. -/
def client2 : ClientState :=
  { client0 with playerMap := [("p1", player0)], foodMap := [(7, food0)],
                 localIdentityHex := some "p1" }

/-- A replicated local player whose server-side name differs from the
scene's name text. -/
def playerBob : Player :=
  { identity := "p1", x := 1500, y := 1500, mass := 100, radius := 20,
    color := 5, name := "Bob" }

def clientBob : ClientState :=
  { client0 with playerMap := [("p1", playerBob)], localIdentityHex := some "p1" }

/-- Scene state after the one-time snap has happened. -/
def sceneInit : SceneState := { scene0 with serverPositionInitialized := true }

/-- A remote target for player-eats-player witnesses: 50 mass at
distance 5 from the origin. -/
def playerTarget : Player :=
  { identity := "bob", x := 3, y := 4, mass := 50, radius := 14, color := 1,
    name := "B" }

/-- A connected client with pellet 5 pending and a remote player whose
eat request is in flight. -/
def clientC2 : ClientState :=
  { client0 with foodMap := [(5, food0)], pendingFoodEats := [5],
                 playerMap := [("p1", player0)] }

def sceneC2 : SceneState := { scene0 with pendingPlayerEats := ["p1"] }

/-- The local player's replicated row for the death-race trace. -/
def playerMe : Player :=
  { identity := "me", x := 1500, y := 1500, mass := 100, radius := 20,
    color := 0, name := "Me" }

/-- A 50-mass target 5 px from the local player's predicted center. -/
def playerT1 : Player :=
  { identity := "t1", x := 3, y := 4, mass := 50, radius := 14, color := 1,
    name := "T1" }

def clientDeath : ClientState :=
  { client0 with playerMap := [("me", playerMe), ("t1", playerT1)],
                 localIdentityHex := some "me" }

def sceneDeath : SceneState :=
  { scene0 with serverPositionInitialized := true, localX := 0, localY := 0 }

/-- Frame dispatching `eatPlayer("t1")`; the local row is deleted (the
local player is eaten) while that request is in flight; the delayed
respawn fires; the next frame scans again. -/
def deathEvents : List DEv :=
  [DEv.frame, DEv.deletePlayer playerMe, DEv.respawn, DEv.frame]

/-- The C9 invariant: every id in the pending food-eat set is a
current key of the food replica map. -/
def pendingFoodInv (s : ClientState) : Prop :=
  ∀ i ∈ s.pendingFoodEats, i ∈ s.foodMap.map Prod.fst

/-- The C6 bound: the predicted position lies within
`[localRadius, WORLD_SIZE - localRadius]` in both coordinates. -/
def inBounds (s : SceneState) : Prop :=
  s.localRadius ≤ s.localX ∧ s.localX ≤ WORLD_SIZE - s.localRadius ∧
  s.localRadius ≤ s.localY ∧ s.localY ≤ WORLD_SIZE - s.localRadius

/-- A predicted player hugging the left wall with its 100-mass radius. -/
def sceneWall : SceneState :=
  { scene0 with serverPositionInitialized := true, localX := 20, localY := 1500 }

/-- The same player's authoritative row after its mass grew to 400. -/
def playerGrown : Player :=
  { identity := "p1", x := 20, y := 1500, mass := 400, radius := 40, color := 0,
    name := "P1" }

def clientGrow : ClientState :=
  { client0 with playerMap := [("p1", playerGrown)],
                 localIdentityHex := some "p1" }

/-! ## Theorems

### Helper lemmas about the map / set embedding -/

@[simp] theorem mem_addS {s : List κ} {a b : κ} :
    b ∈ addS s a ↔ b = a ∨ b ∈ s := by
  unfold addS
  split
  · rename_i h
    exact ⟨Or.inr, fun h' => h'.elim (fun e => e ▸ h) id⟩
  · simp [List.mem_cons]

@[simp] theorem mem_eraseS {s : List κ} {a b : κ} :
    b ∈ eraseS s a ↔ b ∈ s ∧ b ≠ a := by
  simp [eraseS, List.mem_filter]

@[simp] theorem lookupK_nil {k : κ} : lookupK ([] : List (κ × α)) k = none := rfl

theorem lookupK_isSome_iff_mem {m : List (κ × α)} {k : κ} :
    (lookupK m k).isSome ↔ k ∈ m.map Prod.fst := by
  induction m with
  | nil => simp
  | cons p t ih =>
    obtain ⟨k', v⟩ := p
    by_cases h : k = k' <;> simp [lookupK, h, ih]

theorem mem_keys_setK {m : List (κ × α)} {k k' : κ} {v : α} :
    k' ∈ (setK m k v).map Prod.fst ↔ k' = k ∨ k' ∈ m.map Prod.fst := by
  unfold setK
  split
  · rename_i h
    simp only [List.map_map, Function.comp, List.mem_map]
    constructor
    · rintro ⟨p, hp, hpe⟩
      by_cases hk : p.1 = k
      · simp only [hk, if_pos] at hpe
        exact Or.inl hpe.symm
      · simp only [hk, if_neg, not_false_iff] at hpe
        exact Or.inr ⟨p, hp, hpe⟩
    · intro hor
      by_cases hk : k' = k
      · subst hk
        obtain ⟨p, hp, hpk⟩ := List.mem_map.mp h
        exact ⟨p, hp, by simp [hpk]⟩
      · rcases hor with rfl | hmem
        · exact absurd rfl hk
        · obtain ⟨p, hp, hpk⟩ := hmem
          have hne : p.1 ≠ k := hpk ▸ hk
          exact ⟨p, hp, by rw [if_neg hne]; exact hpk⟩
  · simp only [List.map_append, List.mem_append, List.map_cons, List.map_nil,
      List.mem_singleton]
    tauto

theorem mem_keys_eraseK {m : List (κ × α)} {k k' : κ} :
    k' ∈ (eraseK m k).map Prod.fst ↔ k' ∈ m.map Prod.fst ∧ k' ≠ k := by
  unfold eraseK
  constructor
  · intro h
    obtain ⟨p, hp, hpe⟩ := List.mem_map.mp h
    have := List.mem_filter.mp hp
    refine ⟨List.mem_map.mpr ⟨p, this.1, hpe⟩, ?_⟩
    have h2 := this.2
    simp only [decide_eq_true_eq] at h2
    exact hpe ▸ h2
  · rintro ⟨h, hne⟩
    obtain ⟨p, hp, hpe⟩ := List.mem_map.mp h
    refine List.mem_map.mpr ⟨p, List.mem_filter.mpr ⟨hp, ?_⟩, hpe⟩
    simp only [decide_eq_true_eq]
    exact hpe ▸ hne


/-! ### Generation-token staleness (claim C3) -/

/-- C3: for every callback registered under a connection (connect,
subscription-applied, row insert/update/delete handlers, disconnect and
connect-error handlers), if the generation counter has been incremented
past the callback's captured `myGen` before it fires, the callback
leaves all client state unchanged and fires no effect. -/
theorem C3_stale_generation_noop (myGen : Nat) (s : ClientState)
    (idHex : String) (p q : Player) (fid : Nat) (f : FoodPellet)
    (eid : Nat) (em : EjectedMass) (c : PlayerCell)
    (hg : myGen < s.generation) :
    onConnect myGen idHex s = s ∧
    onSubscriptionApplied myGen s = (s, false) ∧
    onDisconnect myGen s = s ∧
    onConnectError myGen s = s ∧
    playerOnInsert myGen p s = s ∧
    playerOnUpdate myGen q s = s ∧
    playerOnDelete myGen p s = (s, false) ∧
    foodOnInsert myGen fid f s = s ∧
    foodOnDelete myGen fid s = s ∧
    ejectedOnInsert myGen eid em s = s ∧
    ejectedOnDelete myGen eid s = s ∧
    cellOnInsert myGen c s = s ∧
    cellOnUpdate myGen c s = s ∧
    cellOnDelete myGen c s = (s, false) := by
  have hne : myGen ≠ s.generation := Nat.ne_of_lt hg
  simp [onConnect, onSubscriptionApplied, onDisconnect, onConnectError,
    playerOnInsert, playerOnUpdate, playerOnDelete, foodOnInsert, foodOnDelete,
    ejectedOnInsert, ejectedOnDelete, cellOnInsert, cellOnUpdate, cellOnDelete,
    hne]

/-- Witness for C3 at a concrete stale callback (generation 0 firing
against current generation 1). -/
theorem C3_stale_generation_noop_witness :
    onConnect 0 "a" client1 = client1 ∧
    onSubscriptionApplied 0 client1 = (client1, false) ∧
    onDisconnect 0 client1 = client1 ∧
    onConnectError 0 client1 = client1 ∧
    playerOnInsert 0 player0 client1 = client1 ∧
    playerOnUpdate 0 player0 client1 = client1 ∧
    playerOnDelete 0 player0 client1 = (client1, false) ∧
    foodOnInsert 0 7 food0 client1 = client1 ∧
    foodOnDelete 0 7 client1 = client1 ∧
    ejectedOnInsert 0 3 em0 client1 = client1 ∧
    ejectedOnDelete 0 3 client1 = client1 ∧
    cellOnInsert 0 cell0 client1 = client1 ∧
    cellOnUpdate 0 cell0 client1 = client1 ∧
    cellOnDelete 0 cell0 client1 = (client1, false) :=
  C3_stale_generation_noop 0 client1 "a" player0 player0 7 food0 3 em0 cell0
    (by simp [client1, client0])

/-! ### Connection failure handling (claim C8) -/

/-- C8 counterexample: a live-generation disconnect does not reset the
replica caches (the player and food maps survive untouched), and a
connect error does not even clear the local identity — contradicting
the claim that connection failure resets all replica caches and clears
the identity. -/
theorem C8_counterexample :
    (onDisconnect client2.generation client2).playerMap = [("p1", player0)] ∧
    (onDisconnect client2.generation client2).playerMap ≠ [] ∧
    (onDisconnect client2.generation client2).foodMap = [(7, food0)] ∧
    (onConnectError client2.generation client2).localIdentityHex = some "p1" := by
  refine ⟨?_, ?_, ?_, ?_⟩ <;>
    simp [onDisconnect, onConnectError, client2, client0]

/-- C8 amended: a live disconnect clears only the local identity and
leaves every replica cache and pending set untouched; a connect error
changes no state at all; the full reset — all four replica maps, both
pending sets, the identity, and the connection flag — is performed by
`cleanupSpacetimeDB`, which also bumps the generation. -/
theorem C8_amended_reset (myGen : Nat) (s : ClientState) :
    (onDisconnect s.generation s).localIdentityHex = none ∧
    (onDisconnect s.generation s).playerMap = s.playerMap ∧
    (onDisconnect s.generation s).foodMap = s.foodMap ∧
    (onDisconnect s.generation s).ejectedMassMap = s.ejectedMassMap ∧
    (onDisconnect s.generation s).playerCellMap = s.playerCellMap ∧
    (onDisconnect s.generation s).pendingFoodEats = s.pendingFoodEats ∧
    (onDisconnect s.generation s).pendingEjectedMassEats
      = s.pendingEjectedMassEats ∧
    onConnectError myGen s = s ∧
    (cleanupSpacetimeDB s).1.playerMap = [] ∧
    (cleanupSpacetimeDB s).1.foodMap = [] ∧
    (cleanupSpacetimeDB s).1.ejectedMassMap = [] ∧
    (cleanupSpacetimeDB s).1.playerCellMap = [] ∧
    (cleanupSpacetimeDB s).1.pendingFoodEats = [] ∧
    (cleanupSpacetimeDB s).1.pendingEjectedMassEats = [] ∧
    (cleanupSpacetimeDB s).1.localIdentityHex = none ∧
    (cleanupSpacetimeDB s).1.connActive = false ∧
    (cleanupSpacetimeDB s).1.generation = s.generation + 1 := by
  simp [onDisconnect, onConnectError, cleanupSpacetimeDB]

/-! ### Eaten-state idempotence (claim C10) -/

/-- C10: `handleEaten` is idempotent — while the local player is
already in the eaten state it changes no scene state and schedules no
respawn, so a duplicate delete event produces exactly one overlay
display and one scheduled respawn. -/
theorem C10_handleEaten_idempotent (s : SceneState) :
    (s.isEaten = true → handleEaten s = (s, false)) ∧
    handleEaten (handleEaten s).1 = ((handleEaten s).1, false) ∧
    (s.isEaten = false →
      (handleEaten s).2 = true ∧
      (handleEaten s).1.eatenOverlayVisible = true ∧
      (handleEaten s).1.isEaten = true) := by
  unfold handleEaten
  by_cases h : s.isEaten <;> simp [h]

/-- Witness for C10 at the freshly-created scene state. -/
theorem C10_handleEaten_idempotent_witness :
    handleEaten (handleEaten scene0).1 = ((handleEaten scene0).1, false) ∧
    (handleEaten scene0).2 = true :=
  ⟨(C10_handleEaten_idempotent scene0).2.1,
   ((C10_handleEaten_idempotent scene0).2.2 (by simp [scene0])).1⟩

/-! ### One-time hard snap (claims C4, C5) -/

theorem syncSplitCell_preserves (cm : List (Nat × PlayerCell)) (idHex : String)
    (s : SceneState) :
    (syncSplitCell cm idHex s).localX = s.localX ∧
    (syncSplitCell cm idHex s).localY = s.localY ∧
    (syncSplitCell cm idHex s).localMass = s.localMass ∧
    (syncSplitCell cm idHex s).localRadius = s.localRadius ∧
    (syncSplitCell cm idHex s).serverPositionInitialized
      = s.serverPositionInitialized ∧
    (syncSplitCell cm idHex s).localNameText = s.localNameText ∧
    (syncSplitCell cm idHex s).localCircleFill = s.localCircleFill ∧
    (syncSplitCell cm idHex s).localSplitFill = s.localSplitFill := by
  unfold syncSplitCell
  cases hf : findCellFor cm idHex with
  | none =>
    by_cases h1 : s.splitCellId = none
    · simp [h1]
    · by_cases h2 : s.splitCircleVisible <;> simp [h1, h2]
  | some cell =>
    by_cases h1 : s.splitCellId = some cell.cellId
    · simp [h1]
    · cases hp : s.pendingSplitDir with
      | none => simp [h1, hp]
      | some d => obtain ⟨nx, ny⟩ := d; simp [h1, hp]

/-- C4: the hard snap happens exactly once per spawn — before the first
authoritative snapshot of the local row, reconciliation leaves the
scene untouched; on the first snapshot the predicted position is set to
the authoritative position with no interpolation (and the initialized
flag is raised); on every later reconciliation the predicted x and y
are left unchanged. -/
theorem C4_hard_snap_once (cs : ClientState) (ss : SceneState) (lid : String)
    (sp : Player) :
    (cs.localIdentityHex = none → syncFromServerLocal cs ss = ss) ∧
    (cs.localIdentityHex = some lid → lookupK cs.playerMap lid = none →
      syncFromServerLocal cs ss = ss) ∧
    (cs.localIdentityHex = some lid → lookupK cs.playerMap lid = some sp →
      ss.serverPositionInitialized = false →
      (syncFromServerLocal cs ss).localX = sp.x ∧
      (syncFromServerLocal cs ss).localY = sp.y ∧
      (syncFromServerLocal cs ss).serverPositionInitialized = true) ∧
    (cs.localIdentityHex = some lid → lookupK cs.playerMap lid = some sp →
      ss.serverPositionInitialized = true →
      (syncFromServerLocal cs ss).localX = ss.localX ∧
      (syncFromServerLocal cs ss).localY = ss.localY) := by
  refine ⟨?_, ?_, ?_, ?_⟩
  · intro h; simp [syncFromServerLocal, h]
  · intro h1 h2; simp [syncFromServerLocal, h1, h2]
  · intro h1 h2 h3
    have hp := syncSplitCell_preserves cs.playerCellMap lid
    simp only [syncFromServerLocal, h1, h2, h3, Bool.not_false, if_true]
    split_ifs <;>
      simp_all [syncSplitCell_preserves]
  · intro h1 h2 h3
    simp only [syncFromServerLocal, h1, h2, h3, Bool.not_true]
    split_ifs <;>
      simp_all [syncSplitCell_preserves]

/-- Witness for C4: first snapshot snaps to the authoritative spawn
point, and once initialized the position is client-led. -/
theorem C4_hard_snap_once_witness :
    (syncFromServerLocal clientBob scene0).localX = playerBob.x ∧
    (syncFromServerLocal clientBob scene0).serverPositionInitialized = true ∧
    (syncFromServerLocal clientBob sceneInit).localX = sceneInit.localX := by
  have h1 := (C4_hard_snap_once clientBob scene0 "p1" playerBob).2.2.1
    (by simp [clientBob, client0]) (by simp [lookupK, clientBob, client0])
    (by simp [scene0])
  have h2 := (C4_hard_snap_once clientBob sceneInit "p1" playerBob).2.2.2
    (by simp [clientBob, client0]) (by simp [lookupK, clientBob, client0])
    (by simp [sceneInit, scene0])
  exact ⟨h1.1, h1.2.2, h2.1⟩

/-- C5 counterexample: the reconciliation step does not overwrite the
local player's name from the authoritative snapshot — with the server
row named "Bob" and the scene's name text "Player", the name text is
still "Player" after `syncFromServer`. -/
theorem C5_name_counterexample :
    playerBob.name = "Bob" ∧
    (syncFromServerLocal clientBob sceneInit).localNameText = "Player" ∧
    (syncFromServerLocal clientBob sceneInit).localNameText ≠ playerBob.name := by
  refine ⟨rfl, ?_, ?_⟩ <;>
    simp [syncFromServerLocal, syncSplitCell, findCellFor, lookupK,
      clientBob, client0, playerBob, sceneInit, scene0]

/-- C5 amended: on every tick in which an authoritative snapshot of the
local row is present, reconciliation overwrites the local mass and both
fill colors from the snapshot; the local name text's content is never
updated from the snapshot. -/
theorem C5_mass_color_overwritten (cs : ClientState) (ss : SceneState)
    (lid : String) (sp : Player)
    (h1 : cs.localIdentityHex = some lid)
    (h2 : lookupK cs.playerMap lid = some sp) :
    (syncFromServerLocal cs ss).localMass = sp.mass ∧
    (syncFromServerLocal cs ss).localCircleFill = sp.color ∧
    (syncFromServerLocal cs ss).localSplitFill = sp.color ∧
    (syncFromServerLocal cs ss).localNameText = ss.localNameText := by
  simp only [syncFromServerLocal, h1, h2]
  split_ifs <;> simp_all [syncSplitCell_preserves]

/-- Witness for C5 at the concrete "Bob" snapshot. -/
theorem C5_mass_color_overwritten_witness :
    (syncFromServerLocal clientBob sceneInit).localMass = playerBob.mass ∧
    (syncFromServerLocal clientBob sceneInit).localCircleFill = playerBob.color ∧
    (syncFromServerLocal clientBob sceneInit).localSplitFill = playerBob.color ∧
    (syncFromServerLocal clientBob sceneInit).localNameText
      = sceneInit.localNameText :=
  C5_mass_color_overwritten clientBob sceneInit "p1" playerBob
    (by simp [clientBob, client0]) (by simp [lookupK, clientBob, client0])

/-! ### Player-eats-player dispatch (claim C1) -/

theorem cpcl_dispatch_subset (localId : String) (lx ly lr lm : ℝ)
    (l : List (String × Player)) :
    ∀ (pending : List String) (x : String),
      x ∈ (checkPlayerCollisionsLoop localId lx ly lr lm l pending).2 →
      x ∈ l.map Prod.fst := by
  induction l with
  | nil => intro pending x hx; simp [checkPlayerCollisionsLoop] at hx
  | cons hd rest ih =>
    obtain ⟨pid, p⟩ := hd
    intro pending x hx
    simp only [checkPlayerCollisionsLoop] at hx
    simp only [List.map_cons, List.mem_cons]
    split_ifs at hx with h1 h2 h3 h4
    · exact Or.inr (ih pending x hx)
    · exact Or.inr (ih pending x hx)
    · exact Or.inr (ih pending x hx)
    · simp only [List.mem_cons] at hx
      rcases hx with rfl | hmem
      · exact Or.inl rfl
      · exact Or.inr (ih _ x hmem)
    · exact Or.inr (ih pending x hx)

theorem cpcl_pending_out (localId : String) (lx ly lr lm : ℝ)
    (l : List (String × Player)) :
    ∀ (pending : List String) (x : String),
      x ∈ (checkPlayerCollisionsLoop localId lx ly lr lm l pending).1 ↔
        x ∈ pending ∨ x ∈ (checkPlayerCollisionsLoop localId lx ly lr lm l pending).2 := by
  induction l with
  | nil => intro pending x; simp [checkPlayerCollisionsLoop]
  | cons hd rest ih =>
    obtain ⟨pid, p⟩ := hd
    intro pending x
    simp only [checkPlayerCollisionsLoop]
    split_ifs with h1 h2 h3 h4
    · exact ih pending x
    · exact ih pending x
    · exact ih pending x
    · simp only [List.mem_cons]
      rw [ih (addS pending pid) x]
      simp only [mem_addS]
      tauto
    · exact ih pending x

theorem cpcl_no_dispatch_of_pending (localId : String) (lx ly lr lm : ℝ)
    (l : List (String × Player)) :
    ∀ (pending : List String) (x : String), x ∈ pending →
      x ∉ (checkPlayerCollisionsLoop localId lx ly lr lm l pending).2 := by
  induction l with
  | nil => intro pending x _ hx; simp [checkPlayerCollisionsLoop] at hx
  | cons hd rest ih =>
    obtain ⟨pid, p⟩ := hd
    intro pending x hp hx
    simp only [checkPlayerCollisionsLoop] at hx
    split_ifs at hx with h1 h2 h3 h4
    · exact ih pending x hp hx
    · exact ih pending x hp hx
    · exact ih pending x hp hx
    · simp only [List.mem_cons] at hx
      rcases hx with rfl | hmem
      · exact h2 hp
      · exact ih (addS pending pid) x (by simp [hp]) hmem
    · exact ih pending x hp hx

theorem cpcl_dispatch_iff (localId : String) (lx ly lr lm : ℝ)
    (l : List (String × Player)) :
    ∀ (pending : List String) (tid : String) (p : Player),
      (l.map Prod.fst).Nodup → lookupK l tid = some p →
      (tid ∈ (checkPlayerCollisionsLoop localId lx ly lr lm l pending).2 ↔
        (tid ≠ localId ∧ tid ∉ pending ∧ ¬(lm < p.mass * 1.1) ∧
         Real.sqrt ((p.x - lx) * (p.x - lx) + (p.y - ly) * (p.y - ly)) < lr)) := by
  induction l with
  | nil => intro pending tid p _ hl; simp [lookupK] at hl
  | cons hd rest ih =>
    obtain ⟨pid, q⟩ := hd
    intro pending tid p hnd hl
    simp only [List.map_cons, List.nodup_cons] at hnd
    by_cases htid : tid = pid
    · subst htid
      have hq : q = p := by
        simp only [lookupK, if_pos rfl] at hl
        exact Option.some_injective _ hl
      subst hq
      have hnotrest : ∀ pd, tid ∉ (checkPlayerCollisionsLoop localId lx ly lr lm rest pd).2 :=
        fun pd hmem => hnd.1 (cpcl_dispatch_subset localId lx ly lr lm rest pd tid hmem)
      simp only [checkPlayerCollisionsLoop]
      split_ifs with h1 h2 h3 h4
      · subst h1; simp [hnotrest pending]
      · simp [hnotrest pending, h2]
      · simp [hnotrest pending, h3]
      · simp [h1, h2, h3, h4]
      · simp [hnotrest pending, h4]
    · have hl' : lookupK rest tid = some p := by
        simpa [lookupK, htid] using hl
      simp only [checkPlayerCollisionsLoop]
      split_ifs with h1 h2 h3 h4
      · exact ih pending tid p hnd.2 hl'
      · exact ih pending tid p hnd.2 hl'
      · exact ih pending tid p hnd.2 hl'
      · simp only [List.mem_cons]
        rw [ih (addS pending pid) tid p hnd.2 hl']
        simp [htid, mem_addS]
      · exact ih pending tid p hnd.2 hl'

/-- C1: in a collision-check frame, an `eatPlayer` request is
dispatched for a remote target (present in the replicated player map
under a duplicate-free key set) exactly when the target id is not
already pending, the local predicted mass is at least 1.1 times the
target's replicated mass, and the distance from the local predicted
center to the target's replicated center is strictly less than the
local predicted radius — the target's own radius playing no part. -/
theorem C1_eatPlayer_dispatch_iff (localId : String) (lx ly lr lm : ℝ)
    (players : List (String × Player)) (pending : List String)
    (tid : String) (p : Player)
    (hnd : (players.map Prod.fst).Nodup)
    (hl : lookupK players tid = some p)
    (hremote : tid ≠ localId) :
    tid ∈ (checkPlayerCollisions localId lx ly lr lm players pending).2 ↔
      (tid ∉ pending ∧ p.mass * 1.1 ≤ lm ∧
       Real.sqrt ((p.x - lx) * (p.x - lx) + (p.y - ly) * (p.y - ly)) < lr) := by
  have hmem : tid ∈ players.map Prod.fst := by
    rw [← lookupK_isSome_iff_mem, hl]; rfl
  have hfil : tid ∈ pending.filter (fun pid => decide (pid ∈ players.map Prod.fst))
      ↔ tid ∈ pending := by
    simp [List.mem_filter, hmem]
  unfold checkPlayerCollisions
  rw [cpcl_dispatch_iff localId lx ly lr lm players _ tid p hnd hl]
  simp [hremote, hfil, not_lt]

/-- Witness for C1: a 50-mass target at distance 5 from a 100-mass
local player of radius 20 is dispatched. -/
theorem C1_eatPlayer_dispatch_iff_witness :
    "bob" ∈ (checkPlayerCollisions "me" 0 0 20 100
      [("bob", playerTarget)] []).2 := by
  rw [C1_eatPlayer_dispatch_iff "me" 0 0 20 100 [("bob", playerTarget)] []
    "bob" playerTarget (by simp) (by simp [lookupK]) (by decide)]
  refine ⟨by simp, by norm_num [playerTarget], ?_⟩
  have h25 : (playerTarget.x - 0) * (playerTarget.x - 0)
      + (playerTarget.y - 0) * (playerTarget.y - 0) = 25 := by
    norm_num [playerTarget]
  rw [h25, show (25 : ℝ) = 5 ^ 2 by norm_num,
    Real.sqrt_sq (by norm_num : (0 : ℝ) ≤ 5)]
  norm_num

/-! ### Food-collision loop lemmas (claims C9, C2) -/

theorem cfc_dispatch_subset (lx ly lr : ℝ) (l : List (Nat × FoodPellet)) :
    ∀ (pending : List Nat) (x : Nat),
      x ∈ (checkFoodCollisions lx ly lr l pending).2 → x ∈ l.map Prod.fst := by
  induction l with
  | nil => intro pending x hx; simp [checkFoodCollisions] at hx
  | cons hd rest ih =>
    obtain ⟨fid, f⟩ := hd
    intro pending x hx
    simp only [checkFoodCollisions] at hx
    simp only [List.map_cons, List.mem_cons]
    split_ifs at hx with h1 h2
    · exact Or.inr (ih pending x hx)
    · simp only [List.mem_cons] at hx
      rcases hx with rfl | hmem
      · exact Or.inl rfl
      · exact Or.inr (ih _ x hmem)
    · exact Or.inr (ih pending x hx)

theorem cfc_pending_out (lx ly lr : ℝ) (l : List (Nat × FoodPellet)) :
    ∀ (pending : List Nat) (x : Nat),
      x ∈ (checkFoodCollisions lx ly lr l pending).1 ↔
        x ∈ pending ∨ x ∈ (checkFoodCollisions lx ly lr l pending).2 := by
  induction l with
  | nil => intro pending x; simp [checkFoodCollisions]
  | cons hd rest ih =>
    obtain ⟨fid, f⟩ := hd
    intro pending x
    simp only [checkFoodCollisions]
    split_ifs with h1 h2
    · exact ih pending x
    · simp only [List.mem_cons]
      rw [ih (addS pending fid) x]
      simp only [mem_addS]
      tauto
    · exact ih pending x

theorem cfc_no_dispatch_of_pending (lx ly lr : ℝ) (l : List (Nat × FoodPellet)) :
    ∀ (pending : List Nat) (x : Nat), x ∈ pending →
      x ∉ (checkFoodCollisions lx ly lr l pending).2 := by
  induction l with
  | nil => intro pending x _ hx; simp [checkFoodCollisions] at hx
  | cons hd rest ih =>
    obtain ⟨fid, f⟩ := hd
    intro pending x hp hx
    simp only [checkFoodCollisions] at hx
    split_ifs at hx with h1 h2
    · exact ih pending x hp hx
    · simp only [List.mem_cons] at hx
      rcases hx with rfl | hmem
      · exact h1 hp
      · exact ih (addS pending fid) x (by simp [hp]) hmem
    · exact ih pending x hp hx

/-! ### Pending-food / food-map invariant (claim C9) -/

/-- C9: the invariant "every pending food-eat id is a current key of
the food replica map" is preserved by every replication handler (at any
generation), by a collision-check frame, by the `eatFood` rejection
handler, and by cleanup. -/
theorem C9_pendingFood_inv_preserved (myGen : Nat) (cs : ClientState)
    (ss : SceneState) (p : Player) (fid : Nat) (f : FoodPellet)
    (eid : Nat) (em : EjectedMass) (c : PlayerCell)
    (hinv : pendingFoodInv cs) :
    pendingFoodInv (playerOnInsert myGen p cs) ∧
    pendingFoodInv (playerOnUpdate myGen p cs) ∧
    pendingFoodInv (playerOnDelete myGen p cs).1 ∧
    pendingFoodInv (foodOnInsert myGen fid f cs) ∧
    pendingFoodInv (foodOnDelete myGen fid cs) ∧
    pendingFoodInv (ejectedOnInsert myGen eid em cs) ∧
    pendingFoodInv (ejectedOnDelete myGen eid cs) ∧
    pendingFoodInv (cellOnInsert myGen c cs) ∧
    pendingFoodInv (cellOnUpdate myGen c cs) ∧
    pendingFoodInv (cellOnDelete myGen c cs).1 ∧
    pendingFoodInv (dispatchStep (cs, ss) DEv.frame).1.1 ∧
    pendingFoodInv (dispatchStep (cs, ss) (DEv.rejectFood fid)).1.1 ∧
    pendingFoodInv (cleanupSpacetimeDB cs).1 := by
  unfold pendingFoodInv at hinv
  refine ⟨?_, ?_, ?_, ?_, ?_, ?_, ?_, ?_, ?_, ?_, ?_, ?_, ?_⟩
  · unfold pendingFoodInv playerOnInsert
    split_ifs <;> exact hinv
  · unfold pendingFoodInv playerOnUpdate
    split_ifs <;> exact hinv
  · unfold pendingFoodInv playerOnDelete
    split_ifs <;> exact hinv
  · unfold pendingFoodInv foodOnInsert
    split_ifs with h
    · exact hinv
    · intro i hi
      simp only [mem_eraseS] at hi
      simp only [mem_keys_setK]
      exact Or.inr (hinv i hi.1)
  · unfold pendingFoodInv foodOnDelete
    split_ifs with h
    · exact hinv
    · intro i hi
      simp only [mem_eraseS] at hi
      simp only [mem_keys_eraseK]
      exact ⟨hinv i hi.1, hi.2⟩
  · unfold pendingFoodInv ejectedOnInsert
    split_ifs <;> exact hinv
  · unfold pendingFoodInv ejectedOnDelete
    split_ifs <;> exact hinv
  · unfold pendingFoodInv cellOnInsert
    split_ifs <;> exact hinv
  · unfold pendingFoodInv cellOnUpdate
    split_ifs <;> exact hinv
  · unfold pendingFoodInv cellOnDelete
    split_ifs <;> exact hinv
  · unfold pendingFoodInv
    simp only [dispatchStep]
    intro i hi
    by_cases hgate : ss.isEaten = true
    · rw [if_pos hgate] at hi ⊢
      exact hinv i hi
    · rw [if_neg hgate] at hi ⊢
      split_ifs at hi with hc
      · rcases (cfc_pending_out ss.localX ss.localY ss.localRadius cs.foodMap
          cs.pendingFoodEats i).mp hi with h | h
        · exact hinv i h
        · exact cfc_dispatch_subset ss.localX ss.localY ss.localRadius cs.foodMap
            cs.pendingFoodEats i h
      · exact hinv i hi
  · unfold pendingFoodInv
    simp only [dispatchStep]
    intro i hi
    simp only [mem_eraseS] at hi
    exact hinv i hi.1
  · unfold pendingFoodInv cleanupSpacetimeDB
    intro i hi
    simp at hi

/-- Witness for C9 at a concrete connected client with one pellet. -/
theorem C9_pendingFood_inv_preserved_witness :
    pendingFoodInv (foodOnDelete 0 7 client2) ∧
    pendingFoodInv (dispatchStep (client2, scene0) DEv.frame).1.1 := by
  have h := C9_pendingFood_inv_preserved 0 client2 scene0 player0 7 food0 3 em0
    cell0 (by unfold pendingFoodInv; simp [client2, client0])
  exact ⟨h.2.2.2.2.1, h.2.2.2.2.2.2.2.2.2.2.1⟩

/-! ### Ejected-mass collision loop lemmas (claim C2) -/

theorem cec_dispatch_subset (lx ly lr : ℝ) (animating : List Nat)
    (l : List (Nat × EjectedMass)) :
    ∀ (pending : List Nat) (x : Nat),
      x ∈ (checkEjectedMassCollisions lx ly lr animating l pending).2 →
      x ∈ l.map Prod.fst := by
  induction l with
  | nil => intro pending x hx; simp [checkEjectedMassCollisions] at hx
  | cons hd rest ih =>
    obtain ⟨mid, em⟩ := hd
    intro pending x hx
    simp only [checkEjectedMassCollisions] at hx
    simp only [List.map_cons, List.mem_cons]
    split_ifs at hx with h1 h2 h3
    · exact Or.inr (ih pending x hx)
    · exact Or.inr (ih pending x hx)
    · simp only [List.mem_cons] at hx
      rcases hx with rfl | hmem
      · exact Or.inl rfl
      · exact Or.inr (ih _ x hmem)
    · exact Or.inr (ih pending x hx)

theorem cec_pending_out (lx ly lr : ℝ) (animating : List Nat)
    (l : List (Nat × EjectedMass)) :
    ∀ (pending : List Nat) (x : Nat),
      x ∈ (checkEjectedMassCollisions lx ly lr animating l pending).1 ↔
        x ∈ pending ∨
        x ∈ (checkEjectedMassCollisions lx ly lr animating l pending).2 := by
  induction l with
  | nil => intro pending x; simp [checkEjectedMassCollisions]
  | cons hd rest ih =>
    obtain ⟨mid, em⟩ := hd
    intro pending x
    simp only [checkEjectedMassCollisions]
    split_ifs with h1 h2 h3
    · exact ih pending x
    · exact ih pending x
    · simp only [List.mem_cons]
      rw [ih (addS pending mid) x]
      simp only [mem_addS]
      tauto
    · exact ih pending x

theorem cec_no_dispatch_of_pending (lx ly lr : ℝ) (animating : List Nat)
    (l : List (Nat × EjectedMass)) :
    ∀ (pending : List Nat) (x : Nat), x ∈ pending →
      x ∉ (checkEjectedMassCollisions lx ly lr animating l pending).2 := by
  induction l with
  | nil => intro pending x _ hx; simp [checkEjectedMassCollisions] at hx
  | cons hd rest ih =>
    obtain ⟨mid, em⟩ := hd
    intro pending x hp hx
    simp only [checkEjectedMassCollisions] at hx
    split_ifs at hx with h1 h2 h3
    · exact ih pending x hp hx
    · exact ih pending x hp hx
    · simp only [List.mem_cons] at hx
      rcases hx with rfl | hmem
      · exact h1 hp
      · exact ih (addS pending mid) x (by simp [hp]) hmem
    · exact ih pending x hp hx

/-! ### Frame-event request analysis (claim C2) -/

theorem frame_reqs_eatFood_iff (cs : ClientState) (ss : SceneState) (fid : Nat) :
    Req.eatFood fid ∈ (dispatchStep (cs, ss) DEv.frame).2 ↔
      (ss.isEaten = false ∧ cs.connActive = true ∧
       fid ∈ (checkFoodCollisions ss.localX ss.localY ss.localRadius cs.foodMap
         cs.pendingFoodEats).2) := by
  simp only [dispatchStep]
  cases he : ss.isEaten <;> cases hc : cs.connActive <;>
    cases hid : cs.localIdentityHex <;> simp

theorem frame_reqs_eatEjected_iff (cs : ClientState) (ss : SceneState) (mid : Nat) :
    Req.eatEjectedMass mid ∈ (dispatchStep (cs, ss) DEv.frame).2 ↔
      (ss.isEaten = false ∧ cs.connActive = true ∧
       mid ∈ (checkEjectedMassCollisions ss.localX ss.localY ss.localRadius
         ss.ejectedAnimating cs.ejectedMassMap cs.pendingEjectedMassEats).2) := by
  simp only [dispatchStep]
  cases he : ss.isEaten <;> cases hc : cs.connActive <;>
    cases hid : cs.localIdentityHex <;> simp

theorem frame_reqs_eatPlayer_iff (cs : ClientState) (ss : SceneState) (pid : String) :
    Req.eatPlayer pid ∈ (dispatchStep (cs, ss) DEv.frame).2 ↔
      (ss.isEaten = false ∧ cs.connActive = true ∧
       ∃ lid, cs.localIdentityHex = some lid ∧
       pid ∈ (checkPlayerCollisions lid ss.localX ss.localY ss.localRadius
         ss.localMass cs.playerMap ss.pendingPlayerEats).2) := by
  simp only [dispatchStep]
  cases he : ss.isEaten <;> cases hc : cs.connActive <;>
    cases hid : cs.localIdentityHex <;> simp

/-! ### Single-step pending preservation (claim C2) -/

theorem step_preserves_pendingFood (cs : ClientState) (ss : SceneState) (e : DEv)
    (fid : Nat) (hp : fid ∈ cs.pendingFoodEats) (hne : ¬ clearsFood e fid) :
    fid ∈ (dispatchStep (cs, ss) e).1.1.pendingFoodEats ∧
    Req.eatFood fid ∉ (dispatchStep (cs, ss) e).2 := by
  cases e with
  | frame =>
    refine ⟨?_, ?_⟩
    · simp only [dispatchStep]
      by_cases hgate : ss.isEaten = true
      · rw [if_pos hgate]
        exact hp
      · rw [if_neg hgate]
        split_ifs with hc
        · exact (cfc_pending_out _ _ _ _ _ _).mpr (Or.inl hp)
        · exact hp
    · rw [frame_reqs_eatFood_iff]
      rintro ⟨he, hc, hd⟩
      exact cfc_no_dispatch_of_pending _ _ _ _ _ fid hp hd
  | rejectFood i =>
    have hi : fid ≠ i := fun h => hne (Or.inl (by rw [h]))
    exact ⟨by simp [dispatchStep, mem_eraseS, hp, hi], by simp [dispatchStep]⟩
  | rejectEjectedMass i =>
    exact ⟨by simp [dispatchStep, hp], by simp [dispatchStep]⟩
  | resolvePlayerEat i =>
    exact ⟨by simp [dispatchStep, hp], by simp [dispatchStep]⟩
  | insertFood i f =>
    have hi : fid ≠ i := fun h => hne (Or.inr (Or.inr ⟨f, by rw [h]⟩))
    exact ⟨by simp [dispatchStep, foodOnInsert, mem_eraseS, hp, hi],
           by simp [dispatchStep]⟩
  | deleteFood i =>
    have hi : fid ≠ i := fun h => hne (Or.inr (Or.inl (by rw [h])))
    exact ⟨by simp [dispatchStep, foodOnDelete, mem_eraseS, hp, hi],
           by simp [dispatchStep]⟩
  | insertEjected i em =>
    exact ⟨by simp [dispatchStep, ejectedOnInsert, hp], by simp [dispatchStep]⟩
  | deleteEjected i =>
    exact ⟨by simp [dispatchStep, ejectedOnDelete, hp], by simp [dispatchStep]⟩
  | insertPlayer p =>
    exact ⟨by simp [dispatchStep, playerOnInsert, hp], by simp [dispatchStep]⟩
  | updatePlayer p =>
    exact ⟨by simp [dispatchStep, playerOnUpdate, hp], by simp [dispatchStep]⟩
  | deletePlayer p =>
    exact ⟨by simp [dispatchStep, playerOnDelete, hp], by simp [dispatchStep]⟩
  | respawn =>
    exact ⟨by simp [dispatchStep, hp], by simp [dispatchStep]⟩

theorem step_preserves_pendingEjected (cs : ClientState) (ss : SceneState)
    (e : DEv) (mid : Nat) (hp : mid ∈ cs.pendingEjectedMassEats)
    (hne : ¬ clearsEjected e mid) :
    mid ∈ (dispatchStep (cs, ss) e).1.1.pendingEjectedMassEats ∧
    Req.eatEjectedMass mid ∉ (dispatchStep (cs, ss) e).2 := by
  cases e with
  | frame =>
    refine ⟨?_, ?_⟩
    · simp only [dispatchStep]
      by_cases hgate : ss.isEaten = true
      · rw [if_pos hgate]
        exact hp
      · rw [if_neg hgate]
        split_ifs with hc
        · exact (cec_pending_out _ _ _ _ _ _ _).mpr (Or.inl hp)
        · exact hp
    · rw [frame_reqs_eatEjected_iff]
      rintro ⟨he, hc, hd⟩
      exact cec_no_dispatch_of_pending _ _ _ _ _ _ mid hp hd
  | rejectFood i =>
    exact ⟨by simp [dispatchStep, hp], by simp [dispatchStep]⟩
  | rejectEjectedMass i =>
    have hi : mid ≠ i := fun h => hne (Or.inl (by rw [h]))
    exact ⟨by simp [dispatchStep, mem_eraseS, hp, hi], by simp [dispatchStep]⟩
  | resolvePlayerEat i =>
    exact ⟨by simp [dispatchStep, hp], by simp [dispatchStep]⟩
  | insertFood i f =>
    exact ⟨by simp [dispatchStep, foodOnInsert, hp], by simp [dispatchStep]⟩
  | deleteFood i =>
    exact ⟨by simp [dispatchStep, foodOnDelete, hp], by simp [dispatchStep]⟩
  | insertEjected i em =>
    exact ⟨by simp [dispatchStep, ejectedOnInsert, hp], by simp [dispatchStep]⟩
  | deleteEjected i =>
    have hi : mid ≠ i := fun h => hne (Or.inr (by rw [h]))
    exact ⟨by simp [dispatchStep, ejectedOnDelete, mem_eraseS, hp, hi],
           by simp [dispatchStep]⟩
  | insertPlayer p =>
    exact ⟨by simp [dispatchStep, playerOnInsert, hp], by simp [dispatchStep]⟩
  | updatePlayer p =>
    exact ⟨by simp [dispatchStep, playerOnUpdate, hp], by simp [dispatchStep]⟩
  | deletePlayer p =>
    exact ⟨by simp [dispatchStep, playerOnDelete, hp], by simp [dispatchStep]⟩
  | respawn =>
    exact ⟨by simp [dispatchStep, hp], by simp [dispatchStep]⟩

theorem step_preserves_pendingPlayer (cs : ClientState) (ss : SceneState)
    (e : DEv) (pid : String) (hp : pid ∈ ss.pendingPlayerEats)
    (hk : pid ∈ cs.playerMap.map Prod.fst)
    (hne : ¬ clearsPlayerEat cs.localIdentityHex e pid) :
    pid ∈ (dispatchStep (cs, ss) e).1.2.pendingPlayerEats ∧
    pid ∈ (dispatchStep (cs, ss) e).1.1.playerMap.map Prod.fst ∧
    Req.eatPlayer pid ∉ (dispatchStep (cs, ss) e).2 := by
  have hfil : pid ∈ ss.pendingPlayerEats.filter
      (fun q => decide (q ∈ cs.playerMap.map Prod.fst)) :=
    List.mem_filter.mpr ⟨hp, by simpa using hk⟩
  cases e with
  | frame =>
    refine ⟨?_, ?_, ?_⟩
    · simp only [dispatchStep]
      by_cases hgate : ss.isEaten = true
      · rw [if_pos hgate]
        exact hp
      · rw [if_neg hgate]
        split_ifs with hc
        · cases hid : cs.localIdentityHex with
          | none => exact hp
          | some lid =>
            unfold checkPlayerCollisions
            exact (cpcl_pending_out _ _ _ _ _ _ _ _).mpr (Or.inl hfil)
        · exact hp
    · simp only [dispatchStep]
      by_cases hgate : ss.isEaten = true
      · rw [if_pos hgate]
        exact hk
      · rw [if_neg hgate]
        exact hk
    · rw [frame_reqs_eatPlayer_iff]
      rintro ⟨he, hc, lid, hid, hd⟩
      unfold checkPlayerCollisions at hd
      exact cpcl_no_dispatch_of_pending _ _ _ _ _ _ _ pid hfil hd
  | rejectFood i =>
    exact ⟨by simp [dispatchStep, hp], by simp [dispatchStep, hk],
           by simp [dispatchStep]⟩
  | rejectEjectedMass i =>
    exact ⟨by simp [dispatchStep, hp], by simp [dispatchStep, hk],
           by simp [dispatchStep]⟩
  | resolvePlayerEat i =>
    have hi : pid ≠ i := fun h => hne (Or.inl (by rw [h]))
    exact ⟨by simp [dispatchStep, mem_eraseS, hp, hi],
           by simp [dispatchStep, hk], by simp [dispatchStep]⟩
  | insertFood i f =>
    exact ⟨by simp [dispatchStep, hp], by simp [dispatchStep, foodOnInsert, hk],
           by simp [dispatchStep]⟩
  | deleteFood i =>
    exact ⟨by simp [dispatchStep, hp], by simp [dispatchStep, foodOnDelete, hk],
           by simp [dispatchStep]⟩
  | insertEjected i em =>
    exact ⟨by simp [dispatchStep, hp],
           by simp [dispatchStep, ejectedOnInsert, hk], by simp [dispatchStep]⟩
  | deleteEjected i =>
    exact ⟨by simp [dispatchStep, hp],
           by simp [dispatchStep, ejectedOnDelete, hk], by simp [dispatchStep]⟩
  | insertPlayer p =>
    refine ⟨by simp [dispatchStep, hp], ?_, by simp [dispatchStep]⟩
    simp only [dispatchStep, playerOnInsert]
    split_ifs with h
    · exact hk
    · exact (mem_keys_setK).mpr (Or.inr hk)
  | updatePlayer p =>
    refine ⟨by simp [dispatchStep, hp], ?_, by simp [dispatchStep]⟩
    simp only [dispatchStep, playerOnUpdate]
    split_ifs with h
    · exact hk
    · exact (mem_keys_setK).mpr (Or.inr hk)
  | deletePlayer p =>
    have hi : p.identity ≠ pid := fun h => hne (Or.inr ⟨p, rfl, Or.inl h⟩)
    have hloc : cs.localIdentityHex ≠ some p.identity :=
      fun h => hne (Or.inr ⟨p, rfl, Or.inr h⟩)
    refine ⟨?_, ?_, by simp [dispatchStep]⟩
    · simp [dispatchStep, playerOnDelete, hloc, hp]
    · simp only [dispatchStep, playerOnDelete]
      split_ifs with h
      · exact hk
      · exact (mem_keys_eraseK).mpr ⟨hk, Ne.symm hi⟩
  | respawn =>
    exact ⟨by simp [dispatchStep, hp], by simp [dispatchStep, hk],
           by simp [dispatchStep]⟩

/-! ### Trace-level pending preservation (claim C2) -/

theorem runD_preserves_pendingFood (fid : Nat) :
    ∀ (evs : List DEv) (st : ClientState × SceneState),
      fid ∈ st.1.pendingFoodEats → (∀ e ∈ evs, ¬ clearsFood e fid) →
      fid ∈ (runD st evs).1.1.pendingFoodEats ∧
      Req.eatFood fid ∉ (runD st evs).2 := by
  intro evs
  induction evs with
  | nil =>
    intro st hp _
    exact ⟨by simpa [runD] using hp, by simp [runD]⟩
  | cons e rest ih =>
    intro st hp hcl
    obtain ⟨cs, ss⟩ := st
    have hstep := step_preserves_pendingFood cs ss e fid hp
      (hcl e (List.mem_cons_self e rest))
    have hrest := ih (dispatchStep (cs, ss) e).1 hstep.1
      (fun e' he' => hcl e' (List.mem_cons_of_mem e he'))
    refine ⟨by simpa [runD] using hrest.1, ?_⟩
    intro hmem
    simp only [runD, List.mem_append] at hmem
    rcases hmem with h | h
    · exact hstep.2 h
    · exact hrest.2 h

theorem runD_preserves_pendingEjected (mid : Nat) :
    ∀ (evs : List DEv) (st : ClientState × SceneState),
      mid ∈ st.1.pendingEjectedMassEats → (∀ e ∈ evs, ¬ clearsEjected e mid) →
      mid ∈ (runD st evs).1.1.pendingEjectedMassEats ∧
      Req.eatEjectedMass mid ∉ (runD st evs).2 := by
  intro evs
  induction evs with
  | nil =>
    intro st hp _
    exact ⟨by simpa [runD] using hp, by simp [runD]⟩
  | cons e rest ih =>
    intro st hp hcl
    obtain ⟨cs, ss⟩ := st
    have hstep := step_preserves_pendingEjected cs ss e mid hp
      (hcl e (List.mem_cons_self e rest))
    have hrest := ih (dispatchStep (cs, ss) e).1 hstep.1
      (fun e' he' => hcl e' (List.mem_cons_of_mem e he'))
    refine ⟨by simpa [runD] using hrest.1, ?_⟩
    intro hmem
    simp only [runD, List.mem_append] at hmem
    rcases hmem with h | h
    · exact hstep.2 h
    · exact hrest.2 h

theorem dispatchStep_localIdentity (cs : ClientState) (ss : SceneState)
    (e : DEv) :
    (dispatchStep (cs, ss) e).1.1.localIdentityHex = cs.localIdentityHex := by
  cases e with
  | frame =>
    simp only [dispatchStep]
    split_ifs <;> rfl
  | rejectFood i => rfl
  | rejectEjectedMass i => rfl
  | resolvePlayerEat i => rfl
  | insertFood i f =>
    simp only [dispatchStep, foodOnInsert]
    split_ifs <;> rfl
  | deleteFood i =>
    simp only [dispatchStep, foodOnDelete]
    split_ifs <;> rfl
  | insertEjected i em =>
    simp only [dispatchStep, ejectedOnInsert]
    split_ifs <;> rfl
  | deleteEjected i =>
    simp only [dispatchStep, ejectedOnDelete]
    split_ifs <;> rfl
  | insertPlayer p =>
    simp only [dispatchStep, playerOnInsert]
    split_ifs <;> rfl
  | updatePlayer p =>
    simp only [dispatchStep, playerOnUpdate]
    split_ifs <;> rfl
  | deletePlayer p =>
    simp only [dispatchStep, playerOnDelete]
    split_ifs <;> rfl
  | respawn => rfl

theorem runD_preserves_pendingPlayer (pid : String) (lidO : Option String) :
    ∀ (evs : List DEv) (st : ClientState × SceneState),
      st.1.localIdentityHex = lidO →
      pid ∈ st.2.pendingPlayerEats → pid ∈ st.1.playerMap.map Prod.fst →
      (∀ e ∈ evs, ¬ clearsPlayerEat lidO e pid) →
      pid ∈ (runD st evs).1.2.pendingPlayerEats ∧
      Req.eatPlayer pid ∉ (runD st evs).2 := by
  intro evs
  induction evs with
  | nil =>
    intro st _ hp _ _
    exact ⟨by simpa [runD] using hp, by simp [runD]⟩
  | cons e rest ih =>
    intro st hlid hp hk hcl
    obtain ⟨cs, ss⟩ := st
    have hne : ¬ clearsPlayerEat cs.localIdentityHex e pid := by
      rw [show cs.localIdentityHex = lidO from hlid]
      exact hcl e (List.mem_cons_self e rest)
    have hstep := step_preserves_pendingPlayer cs ss e pid hp hk hne
    have hlid' : (dispatchStep (cs, ss) e).1.1.localIdentityHex = lidO := by
      rw [dispatchStep_localIdentity]
      exact hlid
    have hrest := ih (dispatchStep (cs, ss) e).1 hlid' hstep.1 hstep.2.1
      (fun e' he' => hcl e' (List.mem_cons_of_mem e he'))
    refine ⟨by simpa [runD] using hrest.1, ?_⟩
    intro hmem
    simp only [runD, List.mem_append] at hmem
    rcases hmem with h | h
    · exact hstep.2.2 h
    · exact hrest.2 h

/-! ### Dispatch marks pending (claim C2) -/

theorem dispatch_marks_pendingFood (cs : ClientState) (ss : SceneState)
    (e : DEv) (fid : Nat)
    (h : Req.eatFood fid ∈ (dispatchStep (cs, ss) e).2) :
    fid ∉ cs.pendingFoodEats ∧
    fid ∈ (dispatchStep (cs, ss) e).1.1.pendingFoodEats := by
  cases e
  case frame =>
    rw [frame_reqs_eatFood_iff] at h
    obtain ⟨he, hc, hd⟩ := h
    constructor
    · intro hp
      exact cfc_no_dispatch_of_pending _ _ _ _ _ fid hp hd
    · simp only [dispatchStep]
      rw [if_neg (by simp [he])]
      split_ifs
      exact (cfc_pending_out _ _ _ _ _ _).mpr (Or.inr hd)
  all_goals simp [dispatchStep] at h

theorem dispatch_marks_pendingEjected (cs : ClientState) (ss : SceneState)
    (e : DEv) (mid : Nat)
    (h : Req.eatEjectedMass mid ∈ (dispatchStep (cs, ss) e).2) :
    mid ∉ cs.pendingEjectedMassEats ∧
    mid ∈ (dispatchStep (cs, ss) e).1.1.pendingEjectedMassEats := by
  cases e
  case frame =>
    rw [frame_reqs_eatEjected_iff] at h
    obtain ⟨he, hc, hd⟩ := h
    constructor
    · intro hp
      exact cec_no_dispatch_of_pending _ _ _ _ _ _ mid hp hd
    · simp only [dispatchStep]
      rw [if_neg (by simp [he])]
      split_ifs
      exact (cec_pending_out _ _ _ _ _ _ _).mpr (Or.inr hd)
  all_goals simp [dispatchStep] at h

theorem dispatch_marks_pendingPlayer (cs : ClientState) (ss : SceneState)
    (e : DEv) (pid : String)
    (h : Req.eatPlayer pid ∈ (dispatchStep (cs, ss) e).2) :
    pid ∉ ss.pendingPlayerEats ∧
    pid ∈ (dispatchStep (cs, ss) e).1.2.pendingPlayerEats := by
  cases e
  case frame =>
    rw [frame_reqs_eatPlayer_iff] at h
    obtain ⟨he, hc, lid, hid, hd⟩ := h
    unfold checkPlayerCollisions at hd
    have hkeys : pid ∈ cs.playerMap.map Prod.fst :=
      cpcl_dispatch_subset _ _ _ _ _ _ _ pid hd
    constructor
    · intro hp
      have hfil : pid ∈ ss.pendingPlayerEats.filter
          (fun q => decide (q ∈ cs.playerMap.map Prod.fst)) :=
        List.mem_filter.mpr ⟨hp, by simpa using hkeys⟩
      exact cpcl_no_dispatch_of_pending _ _ _ _ _ _ _ pid hfil hd
    · simp only [dispatchStep]
      rw [if_neg (by simp [he])]
      split_ifs
      simp only [hid]
      unfold checkPlayerCollisions
      exact (cpcl_pending_out _ _ _ _ _ _ _ _).mpr (Or.inr hd)
  all_goals simp [dispatchStep] at h

/-! ### Single-flight pending tracking (claim C2) -/

/-- C2 (amended): for every consumable target id, the in-flight
tracking is single-shot with one exception — a step dispatches a
request for an id only when the id is not pending and leaves it pending
afterwards; a rejection, the target's replicated delete, a pellet's
(re)insert, the `eatPlayer` resolution, and (for player targets) the
stale sweep on the next frame each evict the pending entry; the
deletion of the local player's own row wholesale-clears the player
pending set (via `handleEaten`), abandoning the in-flight requests
rather than resolving them; and while an entry is pending and none of
its clearing events (including, for players, a local-row deletion)
occurs, no run of steps re-dispatches the id and the entry survives. -/
theorem C2_pending_single_flight (cs : ClientState) (ss : SceneState)
    (e : DEv) (evs : List DEv) (fid mid : Nat) (pid lid : String)
    (lidO : Option String) (f : FoodPellet) :
    (Req.eatFood fid ∈ (dispatchStep (cs, ss) e).2 →
      fid ∉ cs.pendingFoodEats ∧
      fid ∈ (dispatchStep (cs, ss) e).1.1.pendingFoodEats) ∧
    (Req.eatEjectedMass mid ∈ (dispatchStep (cs, ss) e).2 →
      mid ∉ cs.pendingEjectedMassEats ∧
      mid ∈ (dispatchStep (cs, ss) e).1.1.pendingEjectedMassEats) ∧
    (Req.eatPlayer pid ∈ (dispatchStep (cs, ss) e).2 →
      pid ∉ ss.pendingPlayerEats ∧
      pid ∈ (dispatchStep (cs, ss) e).1.2.pendingPlayerEats) ∧
    fid ∉ (dispatchStep (cs, ss) (DEv.rejectFood fid)).1.1.pendingFoodEats ∧
    fid ∉ (dispatchStep (cs, ss) (DEv.deleteFood fid)).1.1.pendingFoodEats ∧
    fid ∉ (dispatchStep (cs, ss) (DEv.insertFood fid f)).1.1.pendingFoodEats ∧
    mid ∉ (dispatchStep (cs, ss)
      (DEv.rejectEjectedMass mid)).1.1.pendingEjectedMassEats ∧
    mid ∉ (dispatchStep (cs, ss)
      (DEv.deleteEjected mid)).1.1.pendingEjectedMassEats ∧
    pid ∉ (dispatchStep (cs, ss)
      (DEv.resolvePlayerEat pid)).1.2.pendingPlayerEats ∧
    (∀ p : Player, ss.isEaten = false → cs.connActive = true →
      cs.localIdentityHex = some p.identity →
      (dispatchStep (cs, ss) (DEv.deletePlayer p)).1.2.pendingPlayerEats = []) ∧
    (ss.isEaten = false → cs.connActive = true →
      cs.localIdentityHex = some lid →
      pid ∉ cs.playerMap.map Prod.fst →
      pid ∉ (dispatchStep (cs, ss) DEv.frame).1.2.pendingPlayerEats) ∧
    (fid ∈ cs.pendingFoodEats → (∀ e' ∈ evs, ¬ clearsFood e' fid) →
      Req.eatFood fid ∉ (runD (cs, ss) evs).2 ∧
      fid ∈ (runD (cs, ss) evs).1.1.pendingFoodEats) ∧
    (mid ∈ cs.pendingEjectedMassEats → (∀ e' ∈ evs, ¬ clearsEjected e' mid) →
      Req.eatEjectedMass mid ∉ (runD (cs, ss) evs).2 ∧
      mid ∈ (runD (cs, ss) evs).1.1.pendingEjectedMassEats) ∧
    (cs.localIdentityHex = lidO → pid ∈ ss.pendingPlayerEats →
      pid ∈ cs.playerMap.map Prod.fst →
      (∀ e' ∈ evs, ¬ clearsPlayerEat lidO e' pid) →
      Req.eatPlayer pid ∉ (runD (cs, ss) evs).2 ∧
      pid ∈ (runD (cs, ss) evs).1.2.pendingPlayerEats) := by
  refine ⟨dispatch_marks_pendingFood cs ss e fid,
          dispatch_marks_pendingEjected cs ss e mid,
          dispatch_marks_pendingPlayer cs ss e pid,
          by simp [dispatchStep, mem_eraseS],
          by simp [dispatchStep, foodOnDelete, mem_eraseS],
          by simp [dispatchStep, foodOnInsert, mem_eraseS],
          by simp [dispatchStep, mem_eraseS],
          by simp [dispatchStep, ejectedOnDelete, mem_eraseS],
          by simp [dispatchStep, mem_eraseS],
          ?_, ?_, ?_, ?_, ?_⟩
  · intro p hE hc hloc
    simp [dispatchStep, playerOnDelete, handleEaten, hE, hc, hloc]
  · intro hE hc hid hk
    simp only [dispatchStep]
    rw [if_neg (by simp [hE])]
    split_ifs
    simp only [hid]
    unfold checkPlayerCollisions
    intro hmem
    rcases (cpcl_pending_out _ _ _ _ _ _ _ _).mp hmem with hfil | hdisp
    · exact hk (by simpa using (List.mem_filter.mp hfil).2)
    · exact hk (cpcl_dispatch_subset _ _ _ _ _ _ _ pid hdisp)
  · intro hp hcl
    have h := runD_preserves_pendingFood fid evs (cs, ss) hp hcl
    exact ⟨h.2, h.1⟩
  · intro hp hcl
    have h := runD_preserves_pendingEjected mid evs (cs, ss) hp hcl
    exact ⟨h.2, h.1⟩
  · intro hlid hp hk hcl
    have h := runD_preserves_pendingPlayer pid lidO evs (cs, ss) hlid hp hk hcl
    exact ⟨h.2, h.1⟩

/-- Witness for C2: with pellet 5 pending and target "p1" pending, a
frame re-dispatches neither; a rejection for pellet 5 evicts it; and
the local row's deletion empties the player pending set. -/
theorem C2_pending_single_flight_witness :
    5 ∉ (dispatchStep (clientC2, sceneC2) (DEv.rejectFood 5)).1.1.pendingFoodEats ∧
    (Req.eatFood 5 ∉ (runD (clientC2, sceneC2) [DEv.frame]).2 ∧
     5 ∈ (runD (clientC2, sceneC2) [DEv.frame]).1.1.pendingFoodEats) ∧
    (Req.eatPlayer "p1" ∉ (runD (clientC2, sceneC2) [DEv.frame]).2 ∧
     "p1" ∈ (runD (clientC2, sceneC2) [DEv.frame]).1.2.pendingPlayerEats) ∧
    (dispatchStep (clientDeath, sceneDeath)
      (DEv.deletePlayer playerMe)).1.2.pendingPlayerEats = [] := by
  have h := C2_pending_single_flight clientC2 sceneC2 DEv.frame [DEv.frame]
    5 6 "p1" "me" none food0
  have h' := C2_pending_single_flight clientDeath sceneDeath DEv.frame []
    5 6 "t1" "me" (some "me") food0
  refine ⟨h.2.2.2.1, ?_, ?_, ?_⟩
  · refine h.2.2.2.2.2.2.2.2.2.2.2.1 (by simp [clientC2, client0]) ?_
    intro e' he'
    simp only [List.mem_singleton] at he'
    subst he'
    simp [clearsFood]
  · refine h.2.2.2.2.2.2.2.2.2.2.2.2.2 (by simp [clientC2, client0])
      (by simp [sceneC2, scene0]) (by simp [clientC2, client0]) ?_
    intro e' he'
    simp only [List.mem_singleton] at he'
    subst he'
    simp [clearsPlayerEat]
  · exact h'.2.2.2.2.2.2.2.2.2.1 playerMe rfl rfl rfl

/-- C2 counterexample to the original claim: with `eatPlayer "t1"` in
flight (dispatched on the first frame), the local row's deletion fires
`handleEaten`, which wholesale-clears `pendingPlayerEats`; after the
delayed respawn resumes frames, the next frame re-dispatches
`eatPlayer "t1"` — two requests for the same id are in flight although
no response for "t1" arrived and "t1" never left the replica cache. -/
theorem C2_counterexample :
    (runD (clientDeath, sceneDeath) deathEvents).2
        = [Req.eatPlayer "t1", Req.eatPlayer "t1"] ∧
    (∀ e ∈ deathEvents, e ≠ DEv.resolvePlayerEat "t1") ∧
    (∀ p : Player, DEv.deletePlayer p ∈ deathEvents → p.identity ≠ "t1") := by
  have hsqrt25 : Real.sqrt 25 = 5 := by
    rw [show (25 : ℝ) = 5 ^ 2 by norm_num,
      Real.sqrt_sq (by norm_num : (0 : ℝ) ≤ 5)]
  have hsqrt100 : Real.sqrt 100 = 10 := by
    rw [show (100 : ℝ) = 10 ^ 2 by norm_num,
      Real.sqrt_sq (by norm_num : (0 : ℝ) ≤ 10)]
  have hne1 : ¬ ("t1" : String) = "me" := by decide
  have hMeId : playerMe.identity = "me" := rfl
  have hT1Id : playerT1.identity = "t1" := rfl
  have hcp1 : checkPlayerCollisions "me" 0 0 20 100
      [("me", playerMe), ("t1", playerT1)] [] = (["t1"], ["t1"]) := by
    norm_num [checkPlayerCollisions, checkPlayerCollisionsLoop, playerMe,
      playerT1, addS, hsqrt25, hne1]
  have hcp2 : checkPlayerCollisions "me" 0 0 20 100
      [("t1", playerT1)] [] = (["t1"], ["t1"]) := by
    norm_num [checkPlayerCollisions, checkPlayerCollisionsLoop, playerT1,
      addS, hsqrt25, hne1]
  refine ⟨?_, ?_, ?_⟩
  · norm_num [runD, deathEvents, dispatchStep, clientDeath, sceneDeath,
      client0, scene0, playerOnDelete, handleEaten, eraseK, INITIAL_MASS,
      massToRadius, hsqrt100, hMeId, hT1Id, hne1, checkFoodCollisions,
      checkEjectedMassCollisions, hcp1, hcp2]
  · intro e he
    simp only [deathEvents, List.mem_cons, List.not_mem_nil, or_false] at he
    rcases he with rfl | rfl | rfl | rfl
    all_goals simp
  · intro p hp
    simp only [deathEvents, List.mem_cons, List.not_mem_nil, or_false] at hp
    rcases hp with hp | hp | hp | hp
    · exact absurd hp (by simp)
    · simp only [DEv.deletePlayer.injEq] at hp
      subst hp
      simp [playerMe]
    · exact absurd hp (by simp)
    · exact absurd hp (by simp)

/-! ### World-bounds invariant (claim C6) -/

/-- C6 counterexample: with the predicted player at x = 20 hugging the
wall (radius 20) and the authoritative mass grown to 400, the frame
pipeline — prediction step (pointer on the player, so no movement),
reconciliation (radius becomes 40), then the position dispatch — sends
`updatePosition` with x = 20 < radius = 40: the position is outside
`[radius, WORLD_SIZE - radius]` at the dispatch point. -/
theorem C6_counterexample :
    (sendPositionUpdate 100 0 true
        (syncFromServerLocal clientGrow
          (movePlayerTowardMouse 20 1500 16 sceneWall))).1 = some (20, 1500) ∧
    (syncFromServerLocal clientGrow
        (movePlayerTowardMouse 20 1500 16 sceneWall)).localRadius = 40 ∧
    ¬ inBounds (syncFromServerLocal clientGrow
        (movePlayerTowardMouse 20 1500 16 sceneWall)) := by
  have hmove : movePlayerTowardMouse 20 1500 16 sceneWall = sceneWall := by
    unfold movePlayerTowardMouse
    norm_num [sceneWall, scene0, Real.sqrt_zero]
  have h400 : massToRadius 400 = 40 := by
    unfold massToRadius
    rw [show (400 : ℝ) = 20 ^ 2 by norm_num,
      Real.sqrt_sq (by norm_num : (0 : ℝ) ≤ 20)]
    norm_num
  have hx : (syncFromServerLocal clientGrow sceneWall).localX = 20 := by
    norm_num [syncFromServerLocal, syncSplitCell, findCellFor, lookupK,
      clientGrow, client0, playerGrown, sceneWall, scene0]
  have hy : (syncFromServerLocal clientGrow sceneWall).localY = 1500 := by
    norm_num [syncFromServerLocal, syncSplitCell, findCellFor, lookupK,
      clientGrow, client0, playerGrown, sceneWall, scene0]
  have hr : (syncFromServerLocal clientGrow sceneWall).localRadius = 40 := by
    rw [← h400]
    norm_num [syncFromServerLocal, syncSplitCell, findCellFor, lookupK,
      clientGrow, client0, playerGrown, sceneWall, scene0]
  rw [hmove]
  refine ⟨?_, hr, ?_⟩
  · unfold sendPositionUpdate
    rw [hx, hy]
    norm_num [POSITION_SEND_INTERVAL_MS]
  · intro hb
    have := hb.1
    rw [hr, hx] at this
    norm_num at this

/-- C6 amended: each movement step keeps the predicted position inside
`[localRadius, WORLD_SIZE - localRadius]` — a frame that actually moves
(initialized, pointer farther than 5 px) establishes the bound outright
via the clamp, and a frame that does not move preserves it; but a
reconciliation that increases the radius can put the position outside
the bound until the next moving frame (the counterexample), so the
invariant holds at dispatch points only while the radius is unchanged
since the last moving frame. -/
theorem C6_move_clamps_to_bounds (px py delta : ℝ) (s : SceneState)
    (hr : s.localRadius ≤ WORLD_SIZE - s.localRadius)
    (h : inBounds s ∨ (s.serverPositionInitialized = true ∧
      Real.sqrt ((px - s.localX) * (px - s.localX)
        + (py - s.localY) * (py - s.localY)) > 5)) :
    inBounds (movePlayerTowardMouse px py delta s) := by
  unfold movePlayerTowardMouse
  split_ifs with h1
  · rcases h with h | ⟨hinit, _⟩
    · exact h
    · rw [hinit] at h1; simp at h1
  · by_cases h2 : Real.sqrt ((px - s.localX) * (px - s.localX)
        + (py - s.localY) * (py - s.localY)) > 5
    · rw [if_pos h2]
      simp only [inBounds]
      refine ⟨le_max_left _ _, max_le hr (min_le_right _ _),
              le_max_left _ _, max_le hr (min_le_right _ _)⟩
    · rw [if_neg h2]
      rcases h with h | ⟨_, hd⟩
      · exact h
      · exact absurd hd h2

/-- Witness for C6 at an in-bounds initialized state. -/
theorem C6_move_clamps_to_bounds_witness :
    inBounds (movePlayerTowardMouse 0 0 16 sceneInit) :=
  C6_move_clamps_to_bounds 0 0 16 sceneInit
    (by norm_num [sceneInit, scene0, WORLD_SIZE])
    (Or.inl (by norm_num [inBounds, sceneInit, scene0, WORLD_SIZE]))

/-! ### Merge-animation termination (claim C7) -/

/-- The merging branch of `updateSplitCells`, written out: one
exponential-approach step toward `(localX, localY)`, ending the
animation when the new distance drops below 5 or the accumulated time
exceeds 600 ms. -/
theorem updateSplitCells_merging_eq (px py δ : ℝ) (cm : List (Nat × PlayerCell))
    (s : SceneState) (hm : s.splitMerging = true) :
    updateSplitCells px py δ cm s =
      if Real.sqrt ((s.localX - (s.splitClientX + (s.localX - s.splitClientX)
            * (1 - Real.exp (-10 * (δ / 1000)))))
          * (s.localX - (s.splitClientX + (s.localX - s.splitClientX)
            * (1 - Real.exp (-10 * (δ / 1000)))))
        + (s.localY - (s.splitClientY + (s.localY - s.splitClientY)
            * (1 - Real.exp (-10 * (δ / 1000)))))
          * (s.localY - (s.splitClientY + (s.localY - s.splitClientY)
            * (1 - Real.exp (-10 * (δ / 1000)))))) < 5
        ∨ s.splitMergeElapsed + δ > 600 then
        { s with splitMergeElapsed := s.splitMergeElapsed + δ,
                 splitClientX := s.splitClientX + (s.localX - s.splitClientX)
                   * (1 - Real.exp (-10 * (δ / 1000))),
                 splitClientY := s.splitClientY + (s.localY - s.splitClientY)
                   * (1 - Real.exp (-10 * (δ / 1000))),
                 splitMerging := false, splitCircleVisible := false }
      else
        { s with splitMergeElapsed := s.splitMergeElapsed + δ,
                 splitClientX := s.splitClientX + (s.localX - s.splitClientX)
                   * (1 - Real.exp (-10 * (δ / 1000))),
                 splitClientY := s.splitClientY + (s.localY - s.splitClientY)
                   * (1 - Real.exp (-10 * (δ / 1000))) } := by
  unfold updateSplitCells
  rw [if_pos hm]

theorem updateSplitCells_not_merging (px py δ : ℝ)
    (cm : List (Nat × PlayerCell)) (s : SceneState)
    (h : s.splitMerging = false) :
    (updateSplitCells px py δ cm s).splitMerging = false := by
  unfold updateSplitCells
  rw [if_neg (by simp [h])]
  split
  · exact h
  · split
    · exact h
    · dsimp only
      split_ifs <;> exact h

theorem runMergeFrames_not_merging (cm : List (Nat × PlayerCell))
    (frames : List MergeFrame) :
    ∀ s : SceneState, s.splitMerging = false →
      (runMergeFrames cm s frames).splitMerging = false := by
  induction frames with
  | nil => intro s h; simpa [runMergeFrames] using h
  | cons f rest ih =>
    intro s h
    simp only [runMergeFrames]
    exact ih _ (updateSplitCells_not_merging _ _ _ _ _ (by simpa using h))

theorem updateSplitCells_merging_elapsed (px py δ : ℝ)
    (cm : List (Nat × PlayerCell)) (s : SceneState)
    (hout : (updateSplitCells px py δ cm s).splitMerging = true) :
    s.splitMerging = true ∧
    (updateSplitCells px py δ cm s).splitMergeElapsed
      = s.splitMergeElapsed + δ ∧
    (updateSplitCells px py δ cm s).splitMergeElapsed ≤ 600 := by
  by_cases hm : s.splitMerging = true
  · refine ⟨hm, ?_, ?_⟩ <;>
    · rw [updateSplitCells_merging_eq px py δ cm s hm] at hout ⊢
      split_ifs at hout ⊢ with hcond
      push_neg at hcond
      first
        | rfl
        | exact hcond.2
  · have hf : s.splitMerging = false := by
      cases hb : s.splitMerging
      · rfl
      · exact absurd hb hm
    rw [updateSplitCells_not_merging px py δ cm s hf] at hout
    cases hout

theorem runMergeFrames_merging_elapsed (cm : List (Nat × PlayerCell)) :
    ∀ (frames : List MergeFrame) (s : SceneState),
      (runMergeFrames cm s frames).splitMerging = true →
      (runMergeFrames cm s frames).splitMergeElapsed
        = s.splitMergeElapsed + (frames.map MergeFrame.delta).sum := by
  intro frames
  induction frames with
  | nil => intro s _; simp [runMergeFrames]
  | cons f rest ih =>
    intro s h
    simp only [runMergeFrames] at h ⊢
    by_cases h1 : (updateSplitCells f.px f.py f.delta cm
        { s with localX := f.lx, localY := f.ly }).splitMerging = true
    · have hstep := updateSplitCells_merging_elapsed f.px f.py f.delta cm
        { s with localX := f.lx, localY := f.ly } h1
      rw [ih _ h, hstep.2.1]
      simp only [List.map_cons, List.sum_cons]
      ring
    · rw [runMergeFrames_not_merging cm rest _ (by simpa using h1)] at h
      cases h

theorem runMergeFrames_merging_le (cm : List (Nat × PlayerCell)) :
    ∀ (frames : List MergeFrame) (s : SceneState), frames ≠ [] →
      (runMergeFrames cm s frames).splitMerging = true →
      (runMergeFrames cm s frames).splitMergeElapsed ≤ 600 := by
  intro frames
  induction frames with
  | nil => intro s h; exact absurd rfl h
  | cons f rest ih =>
    intro s _ h
    by_cases hr : rest = []
    · subst hr
      simp only [runMergeFrames] at h ⊢
      exact (updateSplitCells_merging_elapsed _ _ _ _ _ h).2.2
    · simp only [runMergeFrames] at h ⊢
      exact ih _ hr h

/-- C7 amended: a merge-animation frame ends the animation (flag
cleared, split circle hidden) exactly when the new distance to the
primary cell's current position falls below 5 or the accumulated time
exceeds the 600 ms ceiling; consequently every frame sequence whose
deltas sum past 600 ms completes the animation — in particular any
sequence with deltas bounded below by a positive constant.  (An
infinite sequence of positive deltas summing below 600 ms with the
target farther than 5 px need not complete; see the counterexample.) -/
theorem C7_merge_terminates (px py δ : ℝ) (cm : List (Nat × PlayerCell))
    (s : SceneState) (frames : List MergeFrame) :
    (s.splitMerging = true →
      ((updateSplitCells px py δ cm s).splitMerging = false ↔
        (Real.sqrt ((s.localX - (updateSplitCells px py δ cm s).splitClientX)
            * (s.localX - (updateSplitCells px py δ cm s).splitClientX)
          + (s.localY - (updateSplitCells px py δ cm s).splitClientY)
            * (s.localY - (updateSplitCells px py δ cm s).splitClientY)) < 5
         ∨ s.splitMergeElapsed + δ > 600))) ∧
    (s.splitMerging = true →
      (updateSplitCells px py δ cm s).splitMerging = false →
      (updateSplitCells px py δ cm s).splitCircleVisible = false) ∧
    (0 ≤ s.splitMergeElapsed → 600 < (frames.map MergeFrame.delta).sum →
      (runMergeFrames cm s frames).splitMerging = false) := by
  refine ⟨?_, ?_, ?_⟩
  · intro hm
    rw [updateSplitCells_merging_eq px py δ cm s hm]
    split_ifs with hcond
    · simp only [eq_self_iff_true, true_iff]
      simpa using hcond
    · simp [hm]
      simpa using hcond
  · intro hm hout
    rw [updateSplitCells_merging_eq px py δ cm s hm] at hout ⊢
    split_ifs at hout ⊢ with hcond
    · rfl
    · simp [hm] at hout
  · intro hel hsum
    by_contra hmerge
    simp only [Bool.not_eq_false] at hmerge
    have hne : frames ≠ [] := by
      rintro rfl
      simp at hsum
      linarith
    have he := runMergeFrames_merging_elapsed cm frames s hmerge
    have hle := runMergeFrames_merging_le cm frames s hne hmerge
    rw [he] at hle
    linarith

/-- Witness for C7 at a single 601 ms frame: the ceiling fires. -/
theorem C7_merge_terminates_witness :
    (runMergeFrames [] sceneMerge0 [mergeFrame601]).splitMerging = false :=
  (C7_merge_terminates 0 0 0 [] sceneMerge0 [mergeFrame601]).2.2
    (by norm_num [sceneMerge0, scene0])
    (by norm_num [mergeFrame601])

/-! ### C7 counterexample: vanishing deltas never finish the merge -/

theorem runMergeFrames_append (cm : List (Nat × PlayerCell)) :
    ∀ (l1 l2 : List MergeFrame) (s : SceneState),
      runMergeFrames cm s (l1 ++ l2)
        = runMergeFrames cm (runMergeFrames cm s l1) l2 := by
  intro l1
  induction l1 with
  | nil => intro l2 s; rfl
  | cons f rest ih =>
    intro l2 s
    simp only [List.cons_append, runMergeFrames]
    exact ih l2 _

theorem runMergeFrames_one (cm : List (Nat × PlayerCell)) (f : MergeFrame)
    (s : SceneState) :
    runMergeFrames cm s [f]
      = updateSplitCells f.px f.py f.delta cm
          { s with localX := f.lx, localY := f.ly } := rfl

theorem cexFrames_succ (n : ℕ) :
    cexFrames (n + 1) = cexFrames n
      ++ [{ px := 0, py := 0, lx := 0, ly := 0, delta := 600 / 2 ^ (n + 1) }] := by
  unfold cexFrames
  rw [List.range_succ, List.map_append]
  rfl

theorem exp_six_lt_1000 : Real.exp 6 < 1000 := by
  have h6 : Real.exp 6 = Real.exp 1 ^ 6 := by
    rw [← Real.exp_nat_mul]
    norm_num
  rw [h6]
  have h1 : Real.exp 1 < 2.7182818286 := Real.exp_one_lt_d9
  have h0 : (0 : ℝ) ≤ Real.exp 1 := (Real.exp_pos 1).le
  calc Real.exp 1 ^ 6 < 2.7182818286 ^ 6 :=
        pow_lt_pow_left₀ h1 h0 (by norm_num)
    _ < 1000 := by norm_num

/-- One merge frame of the counterexample run: target fixed at the
origin, split position on the x axis, the exit condition not yet met. -/
theorem merge_step_cex (δ X E : ℝ) (s : SceneState)
    (hm : s.splitMerging = true) (hX : s.splitClientX = X)
    (hY : s.splitClientY = 0) (hlx : s.localX = 0) (hly : s.localY = 0)
    (hE : s.splitMergeElapsed = E)
    (hXpos : 0 < X * Real.exp (-10 * (δ / 1000)))
    (hnd : ¬ X * Real.exp (-10 * (δ / 1000)) < 5)
    (hne : ¬ E + δ > 600) :
    updateSplitCells 0 0 δ [] s
      = { s with splitMergeElapsed := E + δ,
                 splitClientX := X * Real.exp (-10 * (δ / 1000)),
                 splitClientY := 0 } := by
  rw [updateSplitCells_merging_eq 0 0 δ [] s hm]
  have hnx : s.splitClientX + (s.localX - s.splitClientX)
      * (1 - Real.exp (-10 * (δ / 1000))) = X * Real.exp (-10 * (δ / 1000)) := by
    rw [hX, hlx]; ring
  have hny : s.splitClientY + (s.localY - s.splitClientY)
      * (1 - Real.exp (-10 * (δ / 1000))) = 0 := by
    rw [hY, hly]; ring
  have hcond : ¬ (Real.sqrt ((s.localX - (s.splitClientX + (s.localX - s.splitClientX)
        * (1 - Real.exp (-10 * (δ / 1000)))))
      * (s.localX - (s.splitClientX + (s.localX - s.splitClientX)
        * (1 - Real.exp (-10 * (δ / 1000)))))
    + (s.localY - (s.splitClientY + (s.localY - s.splitClientY)
        * (1 - Real.exp (-10 * (δ / 1000)))))
      * (s.localY - (s.splitClientY + (s.localY - s.splitClientY)
        * (1 - Real.exp (-10 * (δ / 1000)))))) < 5
    ∨ s.splitMergeElapsed + δ > 600) := by
    rw [hnx, hny, hlx, hly, hE]
    rintro (h | h)
    · rw [show (0 - X * Real.exp (-10 * (δ / 1000)))
            * (0 - X * Real.exp (-10 * (δ / 1000))) + (0 - 0) * (0 - 0)
          = (X * Real.exp (-10 * (δ / 1000)))
            * (X * Real.exp (-10 * (δ / 1000))) by ring,
        Real.sqrt_mul_self hXpos.le] at h
      exact hnd h
    · exact hne h
  rw [if_neg hcond, hnx, hny, hE]

theorem cex_pow_id (n : ℕ) :
    (-10 * (600 / 2 ^ (n + 1) / 1000) : ℝ) = -(6 * (1 / 2 : ℝ) ^ (n + 1)) := by
  have h1 : ((1 : ℝ) / 2) ^ (n + 1) = 1 / 2 ^ (n + 1) := by
    rw [div_pow, one_pow]
  have h2 : ((2 : ℝ)) ^ (n + 1) ≠ 0 := by positivity
  rw [h1]
  field_simp
  ring

theorem cex_exp_id (n : ℕ) :
    5000 * Real.exp (-(6 * (1 - (1 / 2 : ℝ) ^ n)))
        * Real.exp (-(6 * (1 / 2 : ℝ) ^ (n + 1)))
      = 5000 * Real.exp (-(6 * (1 - (1 / 2 : ℝ) ^ (n + 1)))) := by
  rw [mul_assoc, ← Real.exp_add]
  congr 2
  rw [pow_succ]
  ring

theorem cex_elapsed_id (n : ℕ) :
    600 * (1 - (1 / 2 : ℝ) ^ n) + 600 / 2 ^ (n + 1)
      = 600 * (1 - (1 / 2 : ℝ) ^ (n + 1)) := by
  have h1 : ((1 : ℝ) / 2) ^ n = 1 / 2 ^ n := by rw [div_pow, one_pow]
  have h1' : ((1 : ℝ) / 2) ^ (n + 1) = 1 / 2 ^ (n + 1) := by
    rw [div_pow, one_pow]
  have h2 : ((2 : ℝ)) ^ n ≠ 0 := by positivity
  rw [h1, h1', pow_succ]
  field_simp
  ring

theorem cex_dist_lb (n : ℕ) :
    (5 : ℝ) < 5000 * Real.exp (-(6 * (1 - (1 / 2 : ℝ) ^ (n + 1)))) := by
  have hb : (0 : ℝ) ≤ (1 / 2 : ℝ) ^ (n + 1) := by positivity
  have hmono : Real.exp (-6) ≤ Real.exp (-(6 * (1 - (1 / 2 : ℝ) ^ (n + 1)))) :=
    Real.exp_le_exp.mpr (by nlinarith)
  have h6 : (1 / 1000 : ℝ) < Real.exp (-6) := by
    have := inv_strictAnti₀ (Real.exp_pos 6) exp_six_lt_1000
    rw [Real.exp_neg]
    simpa [one_div] using this
  linarith

theorem cex_elapsed_ub (n : ℕ) :
    ¬ (600 * (1 - (1 / 2 : ℝ) ^ n) + 600 / 2 ^ (n + 1) > 600) := by
  rw [cex_elapsed_id]
  have h : (0 : ℝ) < (1 / 2 : ℝ) ^ (n + 1) := by positivity
  push_neg
  nlinarith

theorem cex_invariant (n : ℕ) :
    (runMergeFrames [] sceneMerge0 (cexFrames n)).splitMerging = true ∧
    (runMergeFrames [] sceneMerge0 (cexFrames n)).splitMergeElapsed
      = 600 * (1 - (1 / 2 : ℝ) ^ n) ∧
    (runMergeFrames [] sceneMerge0 (cexFrames n)).splitClientX
      = 5000 * Real.exp (-(6 * (1 - (1 / 2 : ℝ) ^ n))) ∧
    (runMergeFrames [] sceneMerge0 (cexFrames n)).splitClientY = 0 ∧
    (runMergeFrames [] sceneMerge0 (cexFrames n)).localX = 0 ∧
    (runMergeFrames [] sceneMerge0 (cexFrames n)).localY = 0 := by
  induction n with
  | zero =>
    have h0 : cexFrames 0 = [] := rfl
    rw [h0]
    norm_num [runMergeFrames, sceneMerge0, scene0, Real.exp_zero]
  | succ n ih =>
    obtain ⟨hm, hE, hX, hY, hlx, hly⟩ := ih
    rw [cexFrames_succ, runMergeFrames_append]
    set sn := runMergeFrames [] sceneMerge0 (cexFrames n) with hsn
    simp only [runMergeFrames_one]
    have hXpos : 0 < (5000 * Real.exp (-(6 * (1 - (1 / 2 : ℝ) ^ n))))
        * Real.exp (-10 * ((600 : ℝ) / 2 ^ (n + 1) / 1000)) := by positivity
    have hnd : ¬ (5000 * Real.exp (-(6 * (1 - (1 / 2 : ℝ) ^ n))))
        * Real.exp (-10 * ((600 : ℝ) / 2 ^ (n + 1) / 1000)) < 5 := by
      rw [cex_pow_id, cex_exp_id]
      exact not_lt.mpr (cex_dist_lb n).le
    have hne : ¬ (600 * (1 - (1 / 2 : ℝ) ^ n)) + 600 / 2 ^ (n + 1) > 600 :=
      cex_elapsed_ub n
    have hstep := merge_step_cex (600 / 2 ^ (n + 1))
      (5000 * Real.exp (-(6 * (1 - (1 / 2 : ℝ) ^ n))))
      (600 * (1 - (1 / 2 : ℝ) ^ n))
      { sn with localX := 0, localY := 0 }
      hm hX hY rfl rfl hE hXpos hnd hne
    rw [hstep]
    refine ⟨hm, cex_elapsed_id n, ?_, rfl, rfl, rfl⟩
    show (5000 * Real.exp (-(6 * (1 - (1 / 2 : ℝ) ^ n))))
        * Real.exp (-10 * ((600 : ℝ) / 2 ^ (n + 1) / 1000))
      = 5000 * Real.exp (-(6 * (1 - (1 / 2 : ℝ) ^ (n + 1))))
    rw [cex_pow_id, cex_exp_id]

/-- C7 counterexample: it is not the case that every sequence of frames
with positive deltas completes the merge animation — with the split
half 5000 px from the (stationary) primary cell and the positive deltas
300, 150, 75, ... ms, the accumulated time stays below the 600 ms
ceiling and the distance stays above 12 px forever, so `splitMerging`
never clears. -/
theorem C7_counterexample :
    ¬ (∀ d : ℕ → ℝ, (∀ i, 0 < d i) →
        ∃ n, (runMergeFrames [] sceneMerge0
          ((List.range n).map (fun k =>
            { px := 0, py := 0, lx := 0, ly := 0, delta := d k }))).splitMerging
          = false) := by
  intro hclaim
  obtain ⟨n, hn⟩ := hclaim (fun k => 600 / 2 ^ (k + 1)) (fun i => by positivity)
  exact Bool.noConfusion ((cex_invariant n).1.symm.trans hn)

end Agario
